import Mathlib

/-!
Verification of the ADRE/OAH legal RAG pipeline.

Shallow embedding of the extraction, citation-resolution, ingestion and
retrieval logic of the repository (src/src/comprehensive_processor.py,
src/src/citation_resolver.py, src/src/hybrid_retriever.py,
src/enhanced_ingest.py).  Python strings are modelled as Lean `String`
(with `List Char` underneath); the fragment of Python's `re` module used
by the code (literals, character classes, `\d`, `\s`, `\b`, `$`, greedy
and lazy `?`/`*`/`+`, alternation, groups, IGNORECASE, `re.search`,
`re.finditer`, `re.sub`) is embedded as an executable backtracking
matcher with Python's leftmost / preference-order semantics.  External
collaborators that the spec puts out of scope (the vector store, the
embedding model, document loaders, `hashlib`, `dateutil`) enter as
function parameters.  All definitions are structurally recursive so that
concrete runs reduce inside the kernel.
-/

/-! ## Python string primitives -/

/-- The ASCII whitespace characters matched by Python's `\s` and used by
`str.strip` / `str.split` (the inputs in this development are ASCII, so
the extra Unicode whitespace recognised by Python never occurs). -/
def pyIsSpace (c : Char) : Bool :=
  c = ' ' || c = '\t' || c = '\n' || c = '\r' || c = '\x0b' || c = '\x0c'

/-- Python `str.strip()` on a list of characters. -/
def pyStripL (s : List Char) : List Char :=
  ((s.dropWhile pyIsSpace).reverse.dropWhile pyIsSpace).reverse

/-- Python `str.strip()`. -/
def pyStrip (s : String) : String :=
  String.mk (pyStripL s.toList)

/-- Python `str.rstrip(chars)`: drop trailing characters belonging to `cs`. -/
def pyRstrip (s : String) (cs : List Char) : String :=
  String.mk ((s.toList.reverse.dropWhile (fun c => cs.contains c)).reverse)

/-- Python `str.lower()` (ASCII). -/
def pyLower (s : String) : String :=
  String.mk (s.toList.map Char.toLower)

/-- Python `str.upper()` (ASCII). -/
def pyUpper (s : String) : String :=
  String.mk (s.toList.map Char.toUpper)

/-- Substring occurrence at any start position. -/
def listInfixB (needle : List Char) : List Char → Bool
  | [] => needle.isEmpty
  | c :: rest => needle.isPrefixOf (c :: rest) || listInfixB needle rest

/-- Python `needle in hay` on strings: substring containment
(`"" in s` is `True`, as in Python). -/
def pyContains (hay needle : String) : Bool :=
  listInfixB needle.toList hay.toList

/-- One word of Python `str.split()`: take the run of non-whitespace. -/
def pySplitAux : List Char → List Char → List (List Char)
  | [], acc => if acc.isEmpty then [] else [acc.reverse]
  | c :: rest, acc =>
    if pyIsSpace c then
      if acc.isEmpty then pySplitAux rest [] else acc.reverse :: pySplitAux rest []
    else
      pySplitAux rest (c :: acc)

/-- Python `str.split()` (no argument): split on whitespace runs,
discarding empty fields. -/
def pySplit (s : String) : List String :=
  (pySplitAux s.toList []).map String.mk

/-- Python `sep.join(parts)`. -/
def pyJoin (sep : String) : List String → String
  | [] => ""
  | [x] => x
  | x :: rest => x ++ sep ++ pyJoin sep rest

/-- Python `str.title()` on characters: a cased character is uppercased
when the previous character is not alphabetic, lowercased otherwise. -/
def pyTitleAux : Bool → List Char → List Char
  | _, [] => []
  | prevAlpha, c :: rest =>
    (if c.isAlpha then (if prevAlpha then c.toLower else c.toUpper) else c)
      :: pyTitleAux c.isAlpha rest

/-- Python `str.title()` (ASCII). -/
def pyTitle (s : String) : String :=
  String.mk (pyTitleAux false s.toList)

/-- Python `s.replace(old, new)` on characters, for non-empty `old`
(the repository only calls `replace` with non-empty patterns):
replace all non-overlapping occurrences, scanning left to right. -/
def pyReplaceL (old new : List Char) : Nat → List Char → List Char
  | _, [] => []
  | 0, s => s
  | fuel + 1, c :: rest =>
    if old ≠ [] && old.isPrefixOf (c :: rest) then
      new ++ pyReplaceL old new fuel ((c :: rest).drop old.length)
    else
      c :: pyReplaceL old new fuel rest

/-- Python `s.replace(old, new)` for non-empty `old`. -/
def pyReplace (s old new : String) : String :=
  String.mk (pyReplaceL old.toList new.toList s.toList.length s.toList)

/-- Python string `<`: lexicographic comparison by code point. -/
def pyStrLtL : List Char → List Char → Bool
  | [], [] => false
  | [], _ :: _ => true
  | _ :: _, [] => false
  | a :: as, b :: bs =>
    if a.toNat < b.toNat then true
    else if b.toNat < a.toNat then false
    else pyStrLtL as bs

/-- Python string `<`. -/
def pyStrLt (a b : String) : Bool :=
  pyStrLtL a.toList b.toList

/-- Python slice `s[a:b]` on characters with clamping. -/
def pySliceL (s : List Char) (a b : Nat) : List Char :=
  (s.take b).drop a

/-- Python slice `s[:n]`. -/
def pyTake (s : String) (n : Nat) : String :=
  String.mk (s.toList.take n)

/-! ## The fragment of Python `re` used by the repository

A regular expression AST covering exactly the constructs appearing in
the repository's patterns, and a backtracking matcher with Python's
semantics: leftmost match position, preference order (greedy tries the
body first, lazy tries the continuation first), last-iteration capture
values, `$` matching at the end or before a final newline, `\b` word
boundaries, and IGNORECASE applied to literals and character classes. -/

inductive RE where
  | eps : RE
  | chr (c : Char) : RE
  | cls (neg : Bool) (ranges : List (Char × Char)) : RE
  | seq (a b : RE) : RE
  | alt (a b : RE) : RE
  | opt (greedy : Bool) (r : RE) : RE
  | star (greedy : Bool) (r : RE) : RE
  | group (idx : Nat) (r : RE) : RE
  | wordB : RE
  | eos : RE
deriving Repr

/-- Characters counting as word characters for `\b` (`[A-Za-z0-9_]`). -/
def reIsWord (c : Char) : Bool :=
  c.isAlpha || c.isDigit || c = '_'

/-- Raw membership of a character in a list of ranges. -/
def clsMem0 (ranges : List (Char × Char)) (c : Char) : Bool :=
  ranges.any (fun r => r.1.toNat ≤ c.toNat && c.toNat ≤ r.2.toNat)

/-- Membership in a character class under an optional IGNORECASE flag:
with IGNORECASE a character also matches via its other-case form. -/
def clsMem (ci : Bool) (ranges : List (Char × Char)) (c : Char) : Bool :=
  clsMem0 ranges c ||
    (ci && (clsMem0 ranges c.toLower || clsMem0 ranges c.toUpper))

/-- Literal character match under an optional IGNORECASE flag. -/
def chrMatch (ci : Bool) (pat c : Char) : Bool :=
  if ci then pat.toLower = c.toLower else pat = c

/-- Captured groups: group index paired with the captured substring;
the most recent capture of a group is consulted first, matching
Python's "last match wins" group semantics. -/
abbrev Caps : Type := List (Nat × String)

/-- The backtracking matcher.  `reMat ci inp fuel r pos caps k` attempts
to match `r` at position `pos` of `inp`, calling the continuation `k`
with each candidate end position in Python's preference order and
returning the first success.  `fuel` only bounds the recursion depth
(it is structural, so the kernel can evaluate the matcher); the top
level supplies fuel that the match depth never exhausts. -/
def reMat (ci : Bool) (inp : List Char) :
    Nat → RE → Nat → Caps → (Nat → Caps → Option (Nat × Caps)) →
    Option (Nat × Caps)
  | 0, _, _, _, _ => none
  | fuel + 1, r, pos, caps, k =>
    match r with
    | .eps => k pos caps
    | .chr c =>
      match inp.drop pos with
      | [] => none
      | d :: _ => if chrMatch ci c d then k (pos + 1) caps else none
    | .cls neg ranges =>
      match inp.drop pos with
      | [] => none
      | d :: _ =>
        if (clsMem ci ranges d) ≠ neg then k (pos + 1) caps else none
    | .seq a b =>
      reMat ci inp fuel a pos caps (fun p c => reMat ci inp fuel b p c k)
    | .alt a b =>
      (reMat ci inp fuel a pos caps k) <|> (reMat ci inp fuel b pos caps k)
    | .opt greedy r' =>
      if greedy then (reMat ci inp fuel r' pos caps k) <|> (k pos caps)
      else (k pos caps) <|> (reMat ci inp fuel r' pos caps k)
    | .star greedy r' =>
      let once : Option (Nat × Caps) :=
        reMat ci inp fuel r' pos caps (fun p c =>
          if pos < p then reMat ci inp fuel (.star greedy r') p c k
          else k p c)
      if greedy then once <|> (k pos caps) else (k pos caps) <|> once
    | .group i r' =>
      reMat ci inp fuel r' pos caps (fun p c =>
        k p ((i, String.mk (pySliceL inp pos p)) :: c))
    | .wordB =>
      let left := decide (0 < pos) && (match inp.drop (pos - 1) with
        | d :: _ => reIsWord d
        | [] => false)
      let right := (match inp.drop pos with
        | d :: _ => reIsWord d
        | [] => false)
      if left ≠ right then k pos caps else none
    | .eos =>
      if pos = inp.length ∨
          (pos + 1 = inp.length ∧ inp.drop pos = ['\n']) then
        k pos caps
      else none

/-- A match: start position, end position, captured groups. -/
structure ReMatch where
  mstart : Nat
  mend : Nat
  caps : Caps

/-- `match.group(i)`: `none` models Python's `None` for a group that
did not participate in the match. -/
def ReMatch.grp (m : ReMatch) (i : Nat) : Option String :=
  m.caps.lookup i

/-- Size of a regex AST, used to choose a sufficient matcher fuel. -/
def reSize : RE → Nat
  | .eps => 1
  | .chr _ => 1
  | .cls _ _ => 1
  | .seq a b => reSize a + reSize b + 1
  | .alt a b => reSize a + reSize b + 1
  | .opt _ r => reSize r + 1
  | .star _ r => reSize r + 1
  | .group _ r => reSize r + 1
  | .wordB => 1
  | .eos => 1

/-- Fuel that the matcher's recursion depth never reaches: every level
of the call tree either steps into a strictly smaller AST node or
re-enters a `star` having strictly advanced the position. -/
def reFuel (r : RE) (inp : List Char) : Nat :=
  (reSize r + 2) * (inp.length + 2) + 4

/-- Attempt a match anchored at `pos` (Python `re.match` at an offset). -/
def reMatchAt (ci : Bool) (r : RE) (inp : List Char) (pos : Nat) :
    Option ReMatch :=
  match reMat ci inp (reFuel r inp) r pos [] (fun p c => some (p, c)) with
  | some (e, c) => some ⟨pos, e, c⟩
  | none => none

/-- Scan positions `pos, pos+1, ...` for the leftmost match. -/
def reSearchAux (ci : Bool) (r : RE) (inp : List Char) :
    Nat → Nat → Option ReMatch
  | 0, _ => none
  | fuel + 1, pos =>
    if pos > inp.length then none
    else
      match reMatchAt ci r inp pos with
      | some m => some m
      | none => reSearchAux ci r inp fuel (pos + 1)

/-- Python `re.search(pattern, s, flags)`. -/
def reSearch (ci : Bool) (r : RE) (s : String) : Option ReMatch :=
  reSearchAux ci r s.toList (s.toList.length + 1) 0

/-- Python `re.finditer`: successive non-overlapping leftmost matches;
after an empty match the scan position advances by one. -/
def reFindIterAux (ci : Bool) (r : RE) (inp : List Char) :
    Nat → Nat → List ReMatch
  | 0, _ => []
  | fuel + 1, pos =>
    match reSearchAux ci r inp (inp.length + 1 - pos + 1) pos with
    | none => []
    | some m =>
      m :: reFindIterAux ci r inp fuel
        (if m.mend > m.mstart then m.mend else m.mend + 1)

/-- Python `re.finditer(pattern, s, flags)`. -/
def reFindIter (ci : Bool) (r : RE) (s : String) : List ReMatch :=
  reFindIterAux ci r s.toList (s.toList.length + 2) 0

/-! ### Pattern-building helpers -/

/-- Sequence a list of regexes. -/
def rcat : List RE → RE
  | [] => .eps
  | [r] => r
  | r :: rest => .seq r (rcat rest)

/-- Literal string regex. -/
def rstr (s : String) : RE :=
  rcat (s.toList.map RE.chr)

/-- Alternation of a list of regexes (left-to-right preference). -/
def ralt : List RE → RE
  | [] => .eps
  | [r] => r
  | r :: rest => .alt r (ralt rest)

/-- Character class from single characters. -/
def rset (cs : List Char) : RE :=
  .cls false (cs.map (fun c => (c, c)))

/-- Character class from ranges and single characters. -/
def rcls (ranges : List (Char × Char)) : RE :=
  .cls false ranges

/-- Negated character class from single characters. -/
def rnset (cs : List Char) : RE :=
  .cls true (cs.map (fun c => (c, c)))

/-- The ranges of Python `\s` (ASCII fragment). -/
def wsRanges : List (Char × Char) :=
  [(' ', ' '), ('\t', '\t'), ('\n', '\n'), ('\r', '\r'),
   ('\x0b', '\x0b'), ('\x0c', '\x0c')]

/-- `\s`. -/
def rWs : RE := .cls false wsRanges

/-- `\d`. -/
def rDig : RE := .cls false [('0', '9')]

/-- Greedy `+`. -/
def rplus (r : RE) : RE := .seq r (.star true r)

/-- Lazy `+?`. -/
def rplusLazy (r : RE) : RE := .seq r (.star false r)

/-- Greedy `?`. -/
def ropt (r : RE) : RE := .opt true r

/-- Greedy `*`. -/
def rmany (r : RE) : RE := .star true r

/-- `r{n}`: exactly `n` copies. -/
def rexact : Nat → RE → RE
  | 0, _ => .eps
  | n + 1, r => .seq r (rexact n r)

/-! ## Citation resolver (src/src/citation_resolver.py)

`CitationResolver.normalize_citation` applies `str.strip()` followed by
four `re.sub` rules.  The source file is double-encoded: the bytes of
the second rule decode to the pattern `Â§Â§?` with replacement `Â§`
(so the matched unit is the two-character sequence "Â§", and the final
`?` quantifies only the second `§`), and the third rule's class decodes
to the five characters `-`, `â`, `€`, `“`, `”`.  The embedding is
faithful to those bytes. -/

/-- Rule 1, `re.sub(r'\s+', ' ')`: replace each maximal whitespace run
by a single space. -/
def collapseWsL : List Char → List Char
  | [] => []
  | c :: rest =>
    match rest with
    | [] => [if pyIsSpace c then ' ' else c]
    | d :: _ =>
      if pyIsSpace c then
        if pyIsSpace d then collapseWsL rest else ' ' :: collapseWsL rest
      else c :: collapseWsL rest

/-- Rule 2, `re.sub('Â§Â§?', 'Â§')`: at each position the scanner
prefers the four-character match `Â§Â§`, then the three-character match
`Â§Â`, replacing either with `Â§` and continuing after the match. -/
def secFixL : List Char → List Char
  | 'Â' :: '§' :: 'Â' :: '§' :: rest => 'Â' :: '§' :: secFixL rest
  | 'Â' :: '§' :: 'Â' :: rest => 'Â' :: '§' :: secFixL rest
  | c :: rest => c :: secFixL rest
  | [] => []

/-- Rule 3, `re.sub('[-â€“â€”]', '-')`: map each character of the
(mojibake) dash class to `-`. -/
def dashFixL (s : List Char) : List Char :=
  s.map fun c =>
    if c = '-' || c = 'â' || c = '€' || c = '“' || c = '”' then '-' else c

/-- Rule 4, `re.sub(r'\.$', '')`: remove a period at the end of the
string or immediately before a final newline (the `$` semantics of
Python without `re.MULTILINE`). -/
def dropTrailingPeriodL (s : List Char) : List Char :=
  match s.reverse with
  | '\n' :: '.' :: rest => ('\n' :: rest).reverse
  | '.' :: rest => rest.reverse
  | _ => s

/-- `CitationResolver.normalize_citation`. -/
def normalize_citation (citation : String) : String :=
  String.mk
    (dropTrailingPeriodL (dashFixL (secFixL (collapseWsL
      (pyStripL citation.toList)))))

/-- `CitationResolver.citation_cache`: a dict keyed by normalized
citation string; `none` stored for a miss (Python `None`).  Lookup
consults the most recent binding first, so cons is dict insertion. -/
abbrev CitCache : Type := List (String × Option String)

/-- The `for project in projects` search loop of
`CitationResolver.resolve_citation`, threading the count of per-project
searches performed. -/
def resolve_citation_loop (searchProject : String → String → Option String)
    (cache : CitCache) (normalized : String) :
    List String → Nat → Option String × CitCache × Nat
  | [], n => (none, (normalized, none) :: cache, n)
  | project :: rest, n =>
    match searchProject normalized project with
    | some doc => (some doc, (normalized, some doc) :: cache, n + 1)
    | none => resolve_citation_loop searchProject cache normalized rest (n + 1)

/-- `CitationResolver.resolve_citation`, with the per-project search
(`_search_project_for_citation`, a vector-store / metadata-index lookup,
i.e. an external collaborator) abstracted as `searchProject`. -/
def resolve_citation (searchProject : String → String → Option String)
    (cache : CitCache) (citation : String) (projects : List String) :
    Option String × CitCache × Nat :=
  let normalized := normalize_citation citation
  match cache.lookup normalized with
  | some cached => (cached, cache, 0)
  | none => resolve_citation_loop searchProject cache normalized projects 0

/-! ## Name cleaning and validation
(src/src/comprehensive_processor.py, lines 570-606) -/

/-- `ComprehensiveADREProcessor._clean_name`. -/
def clean_name (name : String) : String :=
  pyTitle (pyRstrip (pyJoin " " (pySplit name)) ['.', ',', ';', ':'])

/-- `ComprehensiveADREProcessor._is_valid_party_name`. -/
def is_valid_party_name (name : String) : Bool :=
  if name = "" || name.toList.length < 3 then false
  else
    let invalid_terms :=
      ["respondent", "petitioner", "complainant", "matter", "case", "docket"]
    !(invalid_terms.any fun term => pyContains (pyLower name) term)

/-- `ComprehensiveADREProcessor._is_valid_attorney_name`. -/
def is_valid_attorney_name (name : String) : Bool :=
  if name = "" || name.toList.length < 5 then false
  else if (pySplit name).length < 2 then false
  else
    let invalid_terms :=
      ["copy", "order", "decision", "arizona", "department", "transmitted"]
    !(invalid_terms.any fun term => pyContains (pyLower name) (pyLower term))

/-- `ComprehensiveADREProcessor._is_valid_judge_name`. -/
def is_valid_judge_name (name : String) : Bool :=
  if name = "" || name.toList.length < 5 then false
  else if (pySplit name).length < 2 then false
  else
    let invalid_terms :=
      ["copy", "order", "decision", "arizona", "department", "transmitted",
       "page"]
    !(invalid_terms.any fun term => pyContains (pyLower name) (pyLower term))

/-! ## Pattern library (src/src/comprehensive_processor.py, `__init__`)

Each definition carries the Python pattern literal it embeds.  All
`re.search` / `re.finditer` calls in the processor pass `re.IGNORECASE`
(the ALJ patterns also pass `re.MULTILINE`, which is inert since none of
them contain `^` or `$`); the filename search passes no flags. -/

/-- `[A-Z0-9\-]+` -/
def upDigDash : RE := rplus (rcls [('A', 'Z'), ('0', '9'), ('-', '-')])

/-- `(\d{2}[A-Z]\-[A-Z]\d+(?:\-REL)?(?:\-RHG)?)` — the ADRE case-number
token, used both in-text and on filenames. -/
def adreNumRe : RE :=
  .group 1 (rcat [rexact 2 rDig, rcls [('A', 'Z')], .chr '-',
    rcls [('A', 'Z')], rplus rDig, ropt (rstr "-REL"), ropt (rstr "-RHG")])

/-- `(?:No\.?\s*)?` -/
def noTokOpt : RE := ropt (rcat [rstr "No", ropt (.chr '.'), rmany rWs])

/-- `case_patterns['oah_docket']`:
`OAH\s+(?:Docket\s+)?(?:No\.?\s*)?([A-Z0-9\-]+)`,
`Docket\s+(?:No\.?\s*)?([A-Z0-9\-]+)`,
`(?:ALJ|Administrative\s+Law\s+Judge)\s+(?:Docket\s+)?(?:No\.?\s*)?([A-Z0-9\-]+)` -/
def oah_docket_patterns : List RE :=
  [rcat [rstr "OAH", rplus rWs, ropt (rcat [rstr "Docket", rplus rWs]),
     noTokOpt, .group 1 upDigDash],
   rcat [rstr "Docket", rplus rWs, noTokOpt, .group 1 upDigDash],
   rcat [ralt [rstr "ALJ",
       rcat [rstr "Administrative", rplus rWs, rstr "Law", rplus rWs,
         rstr "Judge"]],
     rplus rWs, ropt (rcat [rstr "Docket", rplus rWs]), noTokOpt,
     .group 1 upDigDash]]

/-- `case_patterns['adre_case']`:
`ADRE\s+(?:Case\s+)?(?:No\.?\s*)?([A-Z0-9\-]+)`,
`Case\s+(?:No\.?\s*)?(\d{2}[A-Z]\-[A-Z]\d+(?:\-REL)?(?:\-RHG)?)`,
`(?:In\s+)?(?:the\s+)?(?:Matter\s+of\s+)?(?:Case\s+)?(\d{2}[A-Z]\-[A-Z]\d+(?:\-REL)?(?:\-RHG)?)` -/
def adre_case_patterns : List RE :=
  [rcat [rstr "ADRE", rplus rWs, ropt (rcat [rstr "Case", rplus rWs]),
     noTokOpt, .group 1 upDigDash],
   rcat [rstr "Case", rplus rWs, noTokOpt, adreNumRe],
   rcat [ropt (rcat [rstr "In", rplus rWs]),
     ropt (rcat [rstr "the", rplus rWs]),
     ropt (rcat [rstr "Matter", rplus rWs, rstr "of", rplus rWs]),
     ropt (rcat [rstr "Case", rplus rWs]), adreNumRe]]

/-- `[a-zA-Z\s,\.\']` — the party-name character class. -/
def partyCh : RE :=
  .cls false ([('a', 'z'), ('A', 'Z')] ++ wsRanges ++
    [(',', ','), ('.', '.'), ('\'', '\'')])

/-- `([A-Z][a-zA-Z\s,\.\']+?)` -/
def partyNameGrp : RE :=
  .group 1 (rcat [rcls [('A', 'Z')], rplusLazy partyCh])

/-- `party_patterns['petitioner']`:
`(?:Petitioner|Complainant):\s*([A-Z][a-zA-Z\s,\.\']+?)(?:\n|,\s*(?:Respondent|and))`,
`(?:In\s+the\s+)?(?:Matter\s+of\s+)?([A-Z][a-zA-Z\s,\.\']+?),?\s*(?:Petitioner|Complainant)`,
`([A-Z][a-zA-Z\s,\.\']+?)\s*(?:v\.?\s*|vs\.?\s*|against)` -/
def petitioner_patterns : List RE :=
  [rcat [ralt [rstr "Petitioner", rstr "Complainant"], .chr ':', rmany rWs,
     partyNameGrp,
     ralt [.chr '\n',
       rcat [.chr ',', rmany rWs, ralt [rstr "Respondent", rstr "and"]]]],
   rcat [ropt (rcat [rstr "In", rplus rWs, rstr "the", rplus rWs]),
     ropt (rcat [rstr "Matter", rplus rWs, rstr "of", rplus rWs]),
     partyNameGrp, ropt (.chr ','), rmany rWs,
     ralt [rstr "Petitioner", rstr "Complainant"]],
   rcat [partyNameGrp, rmany rWs,
     ralt [rcat [.chr 'v', ropt (.chr '.'), rmany rWs],
       rcat [rstr "vs", ropt (.chr '.'), rmany rWs], rstr "against"]]]

/-- `party_patterns['respondent']`:
`(?:Respondent|Defendant):\s*([A-Z][a-zA-Z\s,\.\']+?)(?:\n|$)`,
`([A-Z][a-zA-Z\s,\.\']+?),?\s*(?:Respondent|Defendant)`,
`(?:v\.?\s*|vs\.?\s*)([A-Z][a-zA-Z\s,\.\']+?)(?:\n|$)` -/
def respondent_patterns : List RE :=
  [rcat [ralt [rstr "Respondent", rstr "Defendant"], .chr ':', rmany rWs,
     partyNameGrp, ralt [.chr '\n', .eos]],
   rcat [partyNameGrp, ropt (.chr ','), rmany rWs,
     ralt [rstr "Respondent", rstr "Defendant"]],
   rcat [ralt [rcat [.chr 'v', ropt (.chr '.'), rmany rWs],
       rcat [rstr "vs", ropt (.chr '.'), rmany rWs]],
     partyNameGrp, ralt [.chr '\n', .eos]]]

/-- `[a-zA-Z\s]` -/
def orgCh : RE := .cls false ([('a', 'z'), ('A', 'Z')] ++ wsRanges)

/-- `([A-Z][a-zA-Z\s]+?)` -/
def orgNameGrp : RE := .group 1 (rcat [rcls [('A', 'Z')], rplusLazy orgCh])

/-- `party_patterns['hoa']`:
`([A-Z][a-zA-Z\s]+?)\s+(?:Homeowners?\s+Association|HOA)(?:\s*,?\s*Inc\.?)?`,
`([A-Z][a-zA-Z\s]+?)\s+(?:Community\s+Association|Condominium\s+Association)`,
`([A-Z][a-zA-Z\s]+?)\s+(?:Property\s+Owners?\s+Association|POA)` -/
def hoa_patterns : List RE :=
  [rcat [orgNameGrp, rplus rWs,
     ralt [rcat [rstr "Homeowner", ropt (.chr 's'), rplus rWs,
         rstr "Association"], rstr "HOA"],
     ropt (rcat [rmany rWs, ropt (.chr ','), rmany rWs, rstr "Inc",
       ropt (.chr '.')])],
   rcat [orgNameGrp, rplus rWs,
     ralt [rcat [rstr "Community", rplus rWs, rstr "Association"],
       rcat [rstr "Condominium", rplus rWs, rstr "Association"]]],
   rcat [orgNameGrp, rplus rWs,
     ralt [rcat [rstr "Property", rplus rWs, rstr "Owner", ropt (.chr 's'),
         rplus rWs, rstr "Association"], rstr "POA"]]]

/-- `party_patterns['management']`:
`([A-Z][a-zA-Z\s]+?)\s+(?:Property\s+)?Management(?:\s+(?:Company|Corp?|LLC|Inc))?`,
`([A-Z][a-zA-Z\s]+?)\s+(?:Management\s+Services|Mgmt)`,
`([A-Z][a-zA-Z\s]+?)\s+(?:Community\s+)?Management` -/
def management_patterns : List RE :=
  [rcat [orgNameGrp, rplus rWs, ropt (rcat [rstr "Property", rplus rWs]),
     rstr "Management",
     ropt (rcat [rplus rWs,
       ralt [rstr "Company", rcat [rstr "Cor", ropt (.chr 'p')], rstr "LLC",
         rstr "Inc"]])],
   rcat [orgNameGrp, rplus rWs,
     ralt [rcat [rstr "Management", rplus rWs, rstr "Services"],
       rstr "Mgmt"]],
   rcat [orgNameGrp, rplus rWs, ropt (rcat [rstr "Community", rplus rWs]),
     rstr "Management"]]

/-- `[A-Z][a-z]+(?:\s+[A-Z]\.?\s*)?[A-Z][a-z]+(?:\s+[A-Z][a-z]+)*` — the
attorney-name shape shared by the representation patterns. -/
def attyNameRe : RE :=
  rcat [rcls [('A', 'Z')], rplus (rcls [('a', 'z')]),
    ropt (rcat [rplus rWs, rcls [('A', 'Z')], ropt (.chr '.'), rmany rWs]),
    rcls [('A', 'Z')], rplus (rcls [('a', 'z')]),
    rmany (rcat [rplus rWs, rcls [('A', 'Z')], rplus (rcls [('a', 'z')])])]

/-- `attorney_patterns['petitioner_attorney']`:
`(?:For\s+(?:the\s+)?Petitioner|Petitioner\s+represented\s+by):\s*(NAME)`,
`(NAME),?\s+(?:Esq\.?,?\s+)?(?:for|representing)\s+(?:the\s+)?Petitioner`
where `NAME` is the shared attorney-name shape. -/
def petitioner_attorney_patterns : List RE :=
  [rcat [ralt [rcat [rstr "For", rplus rWs,
       ropt (rcat [rstr "the", rplus rWs]), rstr "Petitioner"],
     rcat [rstr "Petitioner", rplus rWs, rstr "represented", rplus rWs,
       rstr "by"]],
     .chr ':', rmany rWs, .group 1 attyNameRe],
   rcat [.group 1 attyNameRe, ropt (.chr ','), rplus rWs,
     ropt (rcat [rstr "Esq", ropt (.chr '.'), ropt (.chr ','), rplus rWs]),
     ralt [rstr "for", rstr "representing"], rplus rWs,
     ropt (rcat [rstr "the", rplus rWs]), rstr "Petitioner"]]

/-- `attorney_patterns['respondent_attorney']`: as above with
`Respondent` in place of `Petitioner`. -/
def respondent_attorney_patterns : List RE :=
  [rcat [ralt [rcat [rstr "For", rplus rWs,
       ropt (rcat [rstr "the", rplus rWs]), rstr "Respondent"],
     rcat [rstr "Respondent", rplus rWs, rstr "represented", rplus rWs,
       rstr "by"]],
     .chr ':', rmany rWs, .group 1 attyNameRe],
   rcat [.group 1 attyNameRe, ropt (.chr ','), rplus rWs,
     ropt (rcat [rstr "Esq", ropt (.chr '.'), ropt (.chr ','), rplus rWs]),
     ralt [rstr "for", rstr "representing"], rplus rWs,
     ropt (rcat [rstr "the", rplus rWs]), rstr "Respondent"]]

/-- `attorney_patterns['esq_titles']`: `(NAME),?\s+Esq\.?` -/
def esq_titles_patterns : List RE :=
  [rcat [.group 1 attyNameRe, ropt (.chr ','), rplus rWs, rstr "Esq",
    ropt (.chr '.')]]

/-- `attorney_patterns['aag']`:
`(NAME),?\s+Assistant\s+Attorney\s+General`,
`Assistant\s+Attorney\s+General\s*[:.]?\s*(NAME)` -/
def aag_patterns : List RE :=
  [rcat [.group 1 attyNameRe, ropt (.chr ','), rplus rWs, rstr "Assistant",
     rplus rWs, rstr "Attorney", rplus rWs, rstr "General"],
   rcat [rstr "Assistant", rplus rWs, rstr "Attorney", rplus rWs,
     rstr "General", rmany rWs, ropt (rset [':', '.']), rmany rWs,
     .group 1 attyNameRe]]

/-- `(?:appearing\s+)?pro\s+se|self[\-\s]represented` -/
def pro_se_re : RE :=
  .alt (rcat [ropt (rcat [rstr "appearing", rplus rWs]), rstr "pro",
    rplus rWs, rstr "se"])
    (rcat [rstr "self", .cls false ([('-', '-')] ++ wsRanges),
      rstr "represented"])

/-- `[A-Z][a-z]+(?:\s+[A-Z]\.?\s*)?(?:\s+[A-Z][a-z]+)+` — the judge-name
shape. -/
def judgeNameRe : RE :=
  rcat [rcls [('A', 'Z')], rplus (rcls [('a', 'z')]),
    ropt (rcat [rplus rWs, rcls [('A', 'Z')], ropt (.chr '.'), rmany rWs]),
    rplus (rcat [rplus rWs, rcls [('A', 'Z')], rplus (rcls [('a', 'z')])])]

/-- `judge_patterns['alj']`:
`ADMINISTRATIVE\s+LAW\s+JUDGE:\s*(NAME)`,
`(NAME)\s*,?\s*Administrative\s+Law\s+Judge`,
`Before\s+(?:the\s+Honorable\s+)?(NAME),?\s+Administrative\s+Law\s+Judge` -/
def alj_patterns : List RE :=
  [rcat [rstr "ADMINISTRATIVE", rplus rWs, rstr "LAW", rplus rWs,
     rstr "JUDGE", .chr ':', rmany rWs, .group 1 judgeNameRe],
   rcat [.group 1 judgeNameRe, rmany rWs, ropt (.chr ','), rmany rWs,
     rstr "Administrative", rplus rWs, rstr "Law", rplus rWs, rstr "Judge"],
   rcat [rstr "Before", rplus rWs,
     ropt (rcat [rstr "the", rplus rWs, rstr "Honorable", rplus rWs]),
     .group 1 judgeNameRe, ropt (.chr ','), rplus rWs,
     rstr "Administrative", rplus rWs, rstr "Law", rplus rWs, rstr "Judge"]]

/-- `judge_patterns['judge']`, kept together with the Python pattern
literal because `_extract_judges` tests
`'hearing officer' in pattern.lower()` on that literal:
`(?:Judge|Hearing\s+Officer):\s*(NAME)`,
`(NAME),?\s+(?:Judge|Hearing\s+Officer)` -/
def judge_patterns : List (String × RE) :=
  [("(?:Judge|Hearing\\s+Officer):\\s*([A-Z][a-z]+(?:\\s+[A-Z]\\.?\\s*)?(?:\\s+[A-Z][a-z]+)+)",
    rcat [ralt [rstr "Judge", rcat [rstr "Hearing", rplus rWs,
        rstr "Officer"]],
      .chr ':', rmany rWs, .group 1 judgeNameRe]),
   ("([A-Z][a-z]+(?:\\s+[A-Z]\\.?\\s*)?(?:\\s+[A-Z][a-z]+)+),?\\s+(?:Judge|Hearing\\s+Officer)",
    rcat [.group 1 judgeNameRe, ropt (.chr ','), rplus rWs,
      ralt [rstr "Judge", rcat [rstr "Hearing", rplus rWs,
        rstr "Officer"]]])]

/-- `[0-9\-]+(?:\.[0-9A-Z\-]+)*` — the statute/regulation number shape. -/
def statNumRe : RE :=
  rcat [rplus (rcls [('0', '9'), ('-', '-')]),
    rmany (rcat [.chr '.',
      rplus (rcls [('0', '9'), ('A', 'Z'), ('-', '-')])])]

/-- `(?:Pursuant\s+to\s+|Under\s+|Violat(?:ing|ed?|ion)\s+(?:of\s+)?)?` -/
def violPre : RE :=
  ropt (ralt [rcat [rstr "Pursuant", rplus rWs, rstr "to", rplus rWs],
    rcat [rstr "Under", rplus rWs],
    rcat [rstr "Violat",
      ralt [rstr "ing", rcat [.chr 'e', ropt (.chr 'd')], rstr "ion"],
      rplus rWs, ropt (rcat [rstr "of", rplus rWs])]])

/-- `violation_patterns['ars']`:
`A\.R\.S\.?\s*§?\s*([0-9\-]+(?:\.[0-9A-Z\-]+)*)`,
`Arizona\s+Revised\s+Statutes?\s*§?\s*(...)`,
`(?:Pursuant\s+to\s+|Under\s+|Violat(?:ing|ed?|ion)\s+(?:of\s+)?)?A\.R\.S\.?\s*§?\s*(...)` -/
def ars_patterns : List RE :=
  [rcat [rstr "A.R.S", ropt (.chr '.'), rmany rWs, ropt (.chr '§'),
     rmany rWs, .group 1 statNumRe],
   rcat [rstr "Arizona", rplus rWs, rstr "Revised", rplus rWs,
     rstr "Statute", ropt (.chr 's'), rmany rWs, ropt (.chr '§'),
     rmany rWs, .group 1 statNumRe],
   rcat [violPre, rstr "A.R.S", ropt (.chr '.'), rmany rWs,
     ropt (.chr '§'), rmany rWs, .group 1 statNumRe]]

/-- `violation_patterns['aac']`:
`A\.A\.C\.?\s*R?([0-9\-]+(?:\.[0-9A-Z\-]+)*)`,
`Arizona\s+Administrative\s+Code\s*R?(...)`,
`(?:Pursuant\s+to\s+|Under\s+|Violat(?:ing|ed?|ion)\s+(?:of\s+)?)?A\.A\.C\.?\s*R?(...)` -/
def aac_patterns : List RE :=
  [rcat [rstr "A.A.C", ropt (.chr '.'), rmany rWs, ropt (.chr 'R'),
     .group 1 statNumRe],
   rcat [rstr "Arizona", rplus rWs, rstr "Administrative", rplus rWs,
     rstr "Code", rmany rWs, ropt (.chr 'R'), .group 1 statNumRe],
   rcat [violPre, rstr "A.A.C", ropt (.chr '.'), rmany rWs,
     ropt (.chr 'R'), .group 1 statNumRe]]

/-- `\s*(?:Section\s*|§\s*)?([0-9\.]+)?` — the trailing section part of
every HOA governing-document pattern. -/
def secPart : RE :=
  rcat [rmany rWs,
    ropt (ralt [rcat [rstr "Section", rmany rWs],
      rcat [.chr '§', rmany rWs]]),
    ropt (.group 1 (rplus (rcls [('0', '9'), ('.', '.')])))]

/-- `hoa_violation_patterns['ccr']`:
`CC&R[s]?\s*(?:Section\s*|§\s*)?([0-9\.]+)?`,
`(?:Covenants?,?\s*)?Conditions?,?\s*(?:and\s+)?Restrictions?\s*(?:Section\s*|§\s*)?([0-9\.]+)?`,
`Covenant[s]?\s*(?:Section\s*|§\s*)?([0-9\.]+)?` -/
def ccr_patterns : List RE :=
  [rcat [rstr "CC&R", ropt (rset ['s']), secPart],
   rcat [ropt (rcat [rstr "Covenant", ropt (.chr 's'), ropt (.chr ','),
       rmany rWs]),
     rstr "Condition", ropt (.chr 's'), ropt (.chr ','), rmany rWs,
     ropt (rcat [rstr "and", rplus rWs]),
     rstr "Restriction", ropt (.chr 's'), secPart],
   rcat [rstr "Covenant", ropt (rset ['s']), secPart]]

/-- `hoa_violation_patterns['bylaws']`:
`(?:Bylaws?|By-laws?)\s*(?:Section\s*|§\s*)?([0-9\.]+)?`,
`(?:Corporate\s+)?Bylaws?\s*(?:Section\s*|§\s*)?([0-9\.]+)?` -/
def bylaws_patterns : List RE :=
  [rcat [ralt [rcat [rstr "Bylaw", ropt (.chr 's')],
     rcat [rstr "By-law", ropt (.chr 's')]], secPart],
   rcat [ropt (rcat [rstr "Corporate", rplus rWs]), rstr "Bylaw",
     ropt (.chr 's'), secPart]]

/-- `hoa_violation_patterns['declaration']`:
`Declaration\s*(?:Section\s*|§\s*)?([0-9\.]+)?`,
`Declaration\s+of\s+(?:Covenants?|Restrictions?)\s*(?:Section\s*|§\s*)?([0-9\.]+)?` -/
def declaration_patterns : List RE :=
  [rcat [rstr "Declaration", secPart],
   rcat [rstr "Declaration", rplus rWs, rstr "of", rplus rWs,
     ralt [rcat [rstr "Covenant", ropt (.chr 's')],
       rcat [rstr "Restriction", ropt (.chr 's')]], secPart]]

/-- `hoa_violation_patterns['architectural']`:
`Architectural\s+(?:Guidelines?|Standards?|Requirements?|Rules?)\s*(?:Section\s*|§\s*)?([0-9\.]+)?`,
`Design\s+(?:Guidelines?|Standards?|Requirements?)\s*(?:Section\s*|§\s*)?([0-9\.]+)?` -/
def architectural_patterns : List RE :=
  [rcat [rstr "Architectural", rplus rWs,
     ralt [rcat [rstr "Guideline", ropt (.chr 's')],
       rcat [rstr "Standard", ropt (.chr 's')],
       rcat [rstr "Requirement", ropt (.chr 's')],
       rcat [rstr "Rule", ropt (.chr 's')]], secPart],
   rcat [rstr "Design", rplus rWs,
     ralt [rcat [rstr "Guideline", ropt (.chr 's')],
       rcat [rstr "Standard", ropt (.chr 's')],
       rcat [rstr "Requirement", ropt (.chr 's')]], secPart]]

/-- `hoa_violation_patterns['governing_doc']`:
`Governing\s+Documents?\s*(?:Section\s*|§\s*)?([0-9\.]+)?`,
`Community\s+Documents?\s*(?:Section\s*|§\s*)?([0-9\.]+)?` -/
def governing_doc_patterns : List RE :=
  [rcat [rstr "Governing", rplus rWs, rstr "Document", ropt (.chr 's'),
     secPart],
   rcat [rstr "Community", rplus rWs, rstr "Document", ropt (.chr 's'),
     secPart]]

/-- `[0-9,]+(?:\.[0-9]{2})?` — the money-amount shape. -/
def amountRe : RE :=
  rcat [rplus (rcls [('0', '9'), (',', ',')]),
    ropt (rcat [.chr '.', rexact 2 rDig])]

/-- `penalty_patterns['monetary_fine']`:
`(?:fine|penalty|assessment)\s+(?:of\s+)?\$([0-9,]+(?:\.[0-9]{2})?)`,
`\$([0-9,]+(?:\.[0-9]{2})?)\s+(?:fine|penalty|assessment)`,
`(?:civil\s+)?(?:money\s+)?penalty\s+(?:of\s+)?\$([0-9,]+(?:\.[0-9]{2})?)` -/
def monetary_fine_patterns : List RE :=
  [rcat [ralt [rstr "fine", rstr "penalty", rstr "assessment"], rplus rWs,
     ropt (rcat [rstr "of", rplus rWs]), .chr '$', .group 1 amountRe],
   rcat [.chr '$', .group 1 amountRe, rplus rWs,
     ralt [rstr "fine", rstr "penalty", rstr "assessment"]],
   rcat [ropt (rcat [rstr "civil", rplus rWs]),
     ropt (rcat [rstr "money", rplus rWs]), rstr "penalty", rplus rWs,
     ropt (rcat [rstr "of", rplus rWs]), .chr '$', .group 1 amountRe]]

/-- `penalty_patterns['compliance_order']`:
`(?:order(?:ed)?|direct(?:ed)?|require[ds]?)\s+(?:to\s+)?(?:comply|bring\s+into\s+compliance)`,
`compliance\s+(?:order|directive)`,
`(?:must|shall)\s+(?:comply|bring\s+into\s+compliance)` -/
def compliance_order_patterns : List RE :=
  [rcat [ralt [rcat [rstr "order", ropt (rstr "ed")],
       rcat [rstr "direct", ropt (rstr "ed")],
       rcat [rstr "require", ropt (rset ['d', 's'])]],
     rplus rWs, ropt (rcat [rstr "to", rplus rWs]),
     ralt [rstr "comply",
       rcat [rstr "bring", rplus rWs, rstr "into", rplus rWs,
         rstr "compliance"]]],
   rcat [rstr "compliance", rplus rWs,
     ralt [rstr "order", rstr "directive"]],
   rcat [ralt [rstr "must", rstr "shall"], rplus rWs,
     ralt [rstr "comply",
       rcat [rstr "bring", rplus rWs, rstr "into", rplus rWs,
         rstr "compliance"]]]]

/-- `penalty_patterns['cease_desist']`:
`cease\s+and\s+desist`,
`stop\s+(?:and\s+)?(?:cease|desist)`,
`discontinue\s+(?:the\s+)?(?:practice|activity|conduct)` -/
def cease_desist_patterns : List RE :=
  [rcat [rstr "cease", rplus rWs, rstr "and", rplus rWs, rstr "desist"],
   rcat [rstr "stop", rplus rWs, ropt (rcat [rstr "and", rplus rWs]),
     ralt [rstr "cease", rstr "desist"]],
   rcat [rstr "discontinue", rplus rWs,
     ropt (rcat [rstr "the", rplus rWs]),
     ralt [rstr "practice", rstr "activity", rstr "conduct"]]]

/-- `([^.\n]+(?:\.[^.\n]+)*\.)` — the sentence shape of the findings and
conclusions patterns (group 2 there). -/
def sentenceGrp (idx : Nat) : RE :=
  .group idx (rcat [rplus (rnset ['.', '\n']),
    rmany (rcat [.chr '.', rplus (rnset ['.', '\n'])]), .chr '.'])

/-- `(?:FINDING|FACT)\s*(?:OF\s+FACT\s*)?#?\s*(\d+)[:\.]?\s*([^.\n]+(?:\.[^.\n]+)*\.)` -/
def findings_re : RE :=
  rcat [ralt [rstr "FINDING", rstr "FACT"], rmany rWs,
    ropt (rcat [rstr "OF", rplus rWs, rstr "FACT", rmany rWs]),
    ropt (.chr '#'), rmany rWs, .group 1 (rplus rDig),
    ropt (rset [':', '.']), rmany rWs, sentenceGrp 2]

/-- `(?:CONCLUSION|LAW)\s*(?:OF\s+LAW\s*)?#?\s*(\d+)[:\.]?\s*([^.\n]+(?:\.[^.\n]+)*\.)` -/
def conclusions_re : RE :=
  rcat [ralt [rstr "CONCLUSION", rstr "LAW"], rmany rWs,
    ropt (rcat [rstr "OF", rplus rWs, rstr "LAW", rmany rWs]),
    ropt (.chr '#'), rmany rWs, .group 1 (rplus rDig),
    ropt (rset [':', '.']), rmany rWs, sentenceGrp 2]

/-- `([^.]+(?:\.[^.]+)*\.)` — the order-text shape. -/
def orderTextGrp : RE :=
  .group 1 (rcat [rplus (rnset ['.']),
    rmany (rcat [.chr '.', rplus (rnset ['.'])]), .chr '.'])

/-- `order_patterns` of `_extract_outcomes`:
`IT\s+IS\s+(?:HEREBY\s+)?ORDERED\s+(?:THAT\s+)?([^.]+(?:\.[^.]+)*\.)`,
`ORDERS?\s*:\s*\n([^.]+(?:\.[^.]+)*\.)`,
`(?:HEREBY\s+)?ORDERS?\s+(?:AS\s+FOLLOWS\s*:?\s*)?([^.]+(?:\.[^.]+)*\.)` -/
def order_patterns : List RE :=
  [rcat [rstr "IT", rplus rWs, rstr "IS", rplus rWs,
     ropt (rcat [rstr "HEREBY", rplus rWs]), rstr "ORDERED", rplus rWs,
     ropt (rcat [rstr "THAT", rplus rWs]), orderTextGrp],
   rcat [rstr "ORDER", ropt (.chr 'S'), rmany rWs, .chr ':', rmany rWs,
     .chr '\n', orderTextGrp],
   rcat [ropt (rcat [rstr "HEREBY", rplus rWs]), rstr "ORDER",
     ropt (.chr 'S'), rplus rWs,
     ropt (rcat [rstr "AS", rplus rWs, rstr "FOLLOWS", rmany rWs,
       ropt (.chr ':'), rmany rWs]), orderTextGrp]]

/-- `\w` -/
def rWord : RE := .cls false [('A', 'Z'), ('a', 'z'), ('0', '9'), ('_', '_')]

/-- `(\w+\s+\d{1,2},?\s+\d{4})` — the long date shape. -/
def longDateGrp : RE :=
  .group 1 (rcat [rplus rWord, rplus rWs, rDig, ropt rDig, ropt (.chr ','),
    rplus rWs, rexact 4 rDig])

/-- `date_patterns` of `_extract_dates`, each with its role tag:
`(?:hearing|heard)\s+on\s+(\w+\s+\d{1,2},?\s+\d{4})` / hearing,
`(?:dated?|issued?)\s+(?:this\s+)?(\w+\s+\d{1,2},?\s+\d{4})` / decision,
`(?:filed?\s+on\s+|filing\s+date:?\s*)(\w+\s+\d{1,2},?\s+\d{4})` / filing,
`(\d{1,2}/\d{1,2}/\d{4})` / general -/
def date_patterns : List (RE × String) :=
  [(rcat [ralt [rstr "hearing", rstr "heard"], rplus rWs, rstr "on",
     rplus rWs, longDateGrp], "hearing"),
   (rcat [ralt [rcat [rstr "date", ropt (.chr 'd')],
       rcat [rstr "issue", ropt (.chr 'd')]],
     rplus rWs, ropt (rcat [rstr "this", rplus rWs]), longDateGrp],
    "decision"),
   (rcat [ralt [rcat [rstr "file", ropt (.chr 'd'), rplus rWs, rstr "on",
       rplus rWs],
     rcat [rstr "filing", rplus rWs, rstr "date", ropt (.chr ':'),
       rmany rWs]], longDateGrp], "filing"),
   (.group 1 (rcat [rDig, ropt rDig, .chr '/', rDig, ropt rDig, .chr '/',
     rexact 4 rDig]), "general")]

/-- `doc_type_indicators`. -/
def doc_type_indicators : List (String × List String) :=
  [("final_order", ["FINAL ORDER", "ORDER AND DECISION",
     "DECISION AND ORDER"]),
   ("findings_of_fact", ["FINDINGS OF FACT", "FINDINGS AND CONCLUSIONS"]),
   ("notice_of_hearing", ["NOTICE OF HEARING", "HEARING NOTICE"]),
   ("motion", ["MOTION FOR", "MOTION TO"]),
   ("complaint", ["COMPLAINT", "PETITION"]),
   ("settlement", ["CONSENT ORDER", "SETTLEMENT AGREEMENT"]),
   ("dismissal", ["ORDER OF DISMISSAL", "DISMISSAL"]),
   ("summary_judgment", ["SUMMARY JUDGMENT",
     "MOTION FOR SUMMARY JUDGMENT"])]

/-! ## The case record (dataclass `ComprehensiveADRECase`)

Dates are carried as opaque strings produced by the external
`dateutil.parser.parse` (abstracted below as a function parameter);
`authority_weight` is the exact rational value of the Python float
literals involved (1.0, 2.0, 2.5, 3.0). -/

structure ComprehensiveADRECase where
  case_number : String
  oah_docket : Option String := none
  adre_case_no : Option String := none
  petitioner_name : Option String := none
  petitioner_type : String := "homeowner"
  respondent_name : Option String := none
  respondent_type : String := "unknown"
  hoa_name : Option String := none
  management_company : Option String := none
  petitioner_attorney : Option String := none
  petitioner_attorney_firm : Option String := none
  petitioner_attorney_email : Option String := none
  petitioner_attorney_bar : Option String := none
  respondent_attorney : Option String := none
  respondent_attorney_firm : Option String := none
  respondent_attorney_email : Option String := none
  respondent_attorney_bar : Option String := none
  assistant_attorney_general : Option String := none
  pro_se_parties : List String := []
  judge_name : Option String := none
  administrative_law_judge : Option String := none
  hearing_officer : Option String := none
  hearing_date : Option String := none
  decision_date : Option String := none
  filing_date : Option String := none
  ars_violations : List String := []
  aac_violations : List String := []
  statutes_violated : List String := []
  ccr_violations : List String := []
  bylaws_violations : List String := []
  declaration_violations : List String := []
  architectural_violations : List String := []
  governing_doc_violations : List String := []
  violation_types : List String := []
  violation_descriptions : List String := []
  penalties : List String := []
  monetary_fines : List String := []
  compliance_orders : List String := []
  cease_desist_orders : List String := []
  decision_type : String := "unknown"
  ruling : Option String := none
  findings_of_fact : List String := []
  conclusions_of_law : List String := []
  orders : List String := []
  remedies_granted : List String := []
  document_type : String := "unknown"
  document_subtype : Option String := none
  authority_weight : Rat := 1
  is_primary_authority : Bool := false
deriving Repr, DecidableEq

/-! ## The extractors (`ComprehensiveADREProcessor`)

Each commented block of the Python method bodies is embedded as one
stage function, and each method as the composition of its stages. -/

/-- The `for pattern: if match: break` loop shape of
`_extract_case_info`: first pattern that matches wins; the result is its
group 1 (always a participating group in these pattern lists). -/
def firstGroup (pats : List RE) (text : String) : Option String :=
  match pats with
  | [] => none
  | p :: rest =>
    match reSearch true p text with
    | some m => some ((m.grp 1).getD "")
    | none => firstGroup rest text

/-- The `for pattern: if match: name = clean; if valid(name): set; break`
loop shape shared by the party / attorney / judge extractors: a pattern
that matches but fails validation falls through to the next pattern. -/
def firstValidName (pats : List RE) (valid : String → Bool)
    (text : String) : Option String :=
  match pats with
  | [] => none
  | p :: rest =>
    match reSearch true p text with
    | some m =>
      let name := clean_name ((m.grp 1).getD "")
      if valid name then some name else firstValidName rest valid text
    | none => firstValidName rest valid text

/-- As `firstValidName` but over source-tagged patterns, returning the
winning pattern's Python literal as well (used by `_extract_judges`). -/
def firstValidNameSrc (pats : List (String × RE)) (valid : String → Bool)
    (text : String) : Option (String × String) :=
  match pats with
  | [] => none
  | (src, p) :: rest =>
    match reSearch true p text with
    | some m =>
      let name := clean_name ((m.grp 1).getD "")
      if valid name then some (name, src)
      else firstValidNameSrc rest valid text
    | none => firstValidNameSrc rest valid text

/-- `ComprehensiveADREProcessor._extract_case_number_from_filename`:
`re.search(r'(\d{2}[A-Z]\-[A-Z]\d+(?:\-REL)?(?:\-RHG)?)', filename)`
(no flags), falling back to the filename with all `.docx` / `.doc`
substrings removed. -/
def extract_case_number_from_filename (filename : String) : String :=
  match reSearch false adreNumRe filename with
  | some m => (m.grp 1).getD ""
  | none => pyReplace (pyReplace filename ".docx" "") ".doc" ""

/-- `_extract_case_info`, OAH-docket block. -/
def case_info_oah (case : ComprehensiveADRECase) (text : String) :
    ComprehensiveADRECase :=
  match firstGroup oah_docket_patterns text with
  | some g => { case with oah_docket := some g }
  | none => case

/-- `_extract_case_info`, ADRE-case block: the match also becomes
`case_number`, but only when the current `case_number` is falsy (empty)
or already equal to the match. -/
def case_info_adre (case : ComprehensiveADRECase) (text : String) :
    ComprehensiveADRECase :=
  match firstGroup adre_case_patterns text with
  | some g =>
    let case := { case with adre_case_no := some g }
    if case.case_number = "" ∨ case.case_number = g then
      { case with case_number := g }
    else case
  | none => case

/-- `ComprehensiveADREProcessor._extract_case_info`. -/
def extract_case_info (case : ComprehensiveADRECase) (text : String) :
    ComprehensiveADRECase :=
  case_info_adre (case_info_oah case text) text

/-- `_extract_parties`, petitioner block. -/
def parties_petitioner (case : ComprehensiveADRECase) (text : String) :
    ComprehensiveADRECase :=
  match firstValidName petitioner_patterns is_valid_party_name text with
  | some n => { case with petitioner_name := some n }
  | none => case

/-- `_extract_parties`, respondent block. -/
def parties_respondent (case : ComprehensiveADRECase) (text : String) :
    ComprehensiveADRECase :=
  match firstValidName respondent_patterns is_valid_party_name text with
  | some n => { case with respondent_name := some n }
  | none => case

/-- `_extract_parties`, HOA block.  The `break` leaves only the inner
match loop, so every pattern contributes its first long-enough match,
later patterns overwriting `hoa_name`; `respondent_name` is only filled
when still absent. -/
def parties_hoa_step (text : String) (case : ComprehensiveADRECase)
    (p : RE) : ComprehensiveADRECase :=
  match (reFindIter true p text).find?
      (fun m => 3 < (clean_name ((m.grp 1).getD "")).toList.length) with
  | some m =>
    let hoaName := clean_name ((m.grp 1).getD "")
    { case with
      hoa_name := some hoaName
      respondent_type := "hoa"
      respondent_name :=
        match case.respondent_name with
        | none => some (hoaName ++ " Homeowners Association")
        | some rn => some rn }
  | none => case

/-- `_extract_parties`, HOA block, over all patterns. -/
def parties_hoa (case : ComprehensiveADRECase) (text : String) :
    ComprehensiveADRECase :=
  hoa_patterns.foldl (parties_hoa_step text) case

/-- `_extract_parties`, management-company block (first pattern whose
cleaned match is longer than 3 characters wins). -/
def parties_management (case : ComprehensiveADRECase) (text : String) :
    ComprehensiveADRECase :=
  match firstValidName management_patterns
      (fun n => 3 < n.toList.length) text with
  | some mg =>
    { case with
      management_company := some mg
      respondent_type :=
        if (match case.respondent_name with
            | some rn => pyContains (pyLower rn) "management"
            | none => false) then
          "management_company"
        else case.respondent_type }
  | none => case

/-- `ComprehensiveADREProcessor._extract_parties`. -/
def extract_parties (case : ComprehensiveADRECase) (text : String) :
    ComprehensiveADRECase :=
  parties_management
    (parties_hoa (parties_respondent (parties_petitioner case text) text)
      text) text

/-- The Esq.-title scan of `_extract_attorneys`: every `esq_titles`
finditer match, cleaned, kept when it passes the attorney-name
validator, in match order. -/
def esq_attorney_names (text : String) : List String :=
  esq_titles_patterns.foldl (fun acc p =>
    acc ++ (((reFindIter true p text).map
      (fun m => clean_name ((m.grp 1).getD ""))).filter
        is_valid_attorney_name)) []

/-- `_extract_attorneys`, petitioner-attorney block. -/
def attorneys_petitioner (case : ComprehensiveADRECase) (text : String) :
    ComprehensiveADRECase :=
  match firstValidName petitioner_attorney_patterns
      is_valid_attorney_name text with
  | some n => { case with petitioner_attorney := some n }
  | none => case

/-- `_extract_attorneys`, respondent-attorney block. -/
def attorneys_respondent (case : ComprehensiveADRECase) (text : String) :
    ComprehensiveADRECase :=
  match firstValidName respondent_attorney_patterns
      is_valid_attorney_name text with
  | some n => { case with respondent_attorney := some n }
  | none => case

/-- `_extract_attorneys`, role-inference block: validated Esq. names
fill the unassigned roles positionally — one name goes to the
respondent, two names go petitioner-then-respondent, otherwise
nothing. -/
def attorneys_esq_default (case : ComprehensiveADRECase)
    (esq_attorneys : List String) : ComprehensiveADRECase :=
  if !esq_attorneys.isEmpty && case.petitioner_attorney.isNone &&
      case.respondent_attorney.isNone then
    match esq_attorneys with
    | [a] => { case with respondent_attorney := some a }
    | [a, b] =>
      { case with petitioner_attorney := some a,
                  respondent_attorney := some b }
    | _ => case
  else case

/-- `_extract_attorneys`, Assistant-Attorney-General block (an AAG also
becomes the petitioner's attorney when that role is still unset). -/
def attorneys_aag (case : ComprehensiveADRECase) (text : String) :
    ComprehensiveADRECase :=
  match firstValidName aag_patterns is_valid_attorney_name text with
  | some n =>
    { case with
      assistant_attorney_general := some n
      petitioner_attorney :=
        match case.petitioner_attorney with
        | none => some n
        | some a => some a }
  | none => case

/-- `_extract_attorneys`, pro-se block. -/
def attorneys_pro_se (case : ComprehensiveADRECase) (text : String) :
    ComprehensiveADRECase :=
  if (reSearch true pro_se_re text).isSome then
    let case :=
      if case.petitioner_attorney.isNone then
        { case with
          pro_se_parties := case.pro_se_parties ++ ["petitioner"] }
      else case
    if case.respondent_attorney.isNone then
      { case with pro_se_parties := case.pro_se_parties ++ ["respondent"] }
    else case
  else case

/-- `ComprehensiveADREProcessor._extract_attorneys` (all searches run on
the raw text argument). -/
def extract_attorneys (case : ComprehensiveADRECase) (text : String) :
    ComprehensiveADRECase :=
  attorneys_pro_se
    (attorneys_aag
      (attorneys_esq_default
        (attorneys_respondent (attorneys_petitioner case text) text)
        (esq_attorney_names text)) text) text

/-- `_extract_judges`, Administrative-Law-Judge block. -/
def judges_alj (case : ComprehensiveADRECase) (text : String) :
    ComprehensiveADRECase :=
  match firstValidName alj_patterns is_valid_judge_name text with
  | some n =>
    { case with administrative_law_judge := some n, judge_name := some n }
  | none => case

/-- `_extract_judges`, other-judges block, run only when `judge_name` is
still unset.  The `hearing_officer` assignment tests
`'hearing officer' in pattern.lower()` against the winning pattern's
literal — which contains `hearing\s+officer`, never the plain substring,
so the flag can in fact never fire. -/
def judges_other (case : ComprehensiveADRECase) (text : String) :
    ComprehensiveADRECase :=
  if case.judge_name.isNone then
    match firstValidNameSrc judge_patterns is_valid_judge_name text with
    | some ns =>
      { case with
        judge_name := some ns.1
        hearing_officer :=
          if pyContains (pyLower ns.2) "hearing officer" then some ns.1
          else case.hearing_officer }
    | none => case
  else case

/-- `ComprehensiveADREProcessor._extract_judges` (the `text_lines`
argument of the Python method is never used by its body). -/
def extract_judges (case : ComprehensiveADRECase) (text : String) :
    ComprehensiveADRECase :=
  judges_other (judges_alj case text) text

/-- One A.R.S. finditer match of `_extract_legal_violations`: format and
append unless the formatted entry is already in `ars_violations`. -/
def legal_ars_step (case : ComprehensiveADRECase) (m : ReMatch) :
    ComprehensiveADRECase :=
  let statute := "A.R.S. § " ++ (m.grp 1).getD ""
  if case.ars_violations.contains statute then case
  else
    { case with
      ars_violations := case.ars_violations ++ [statute]
      statutes_violated := case.statutes_violated ++ [statute] }

/-- One A.A.C. finditer match of `_extract_legal_violations`. -/
def legal_aac_step (case : ComprehensiveADRECase) (m : ReMatch) :
    ComprehensiveADRECase :=
  let regulation := "A.A.C. R" ++ (m.grp 1).getD ""
  if case.aac_violations.contains regulation then case
  else
    { case with
      aac_violations := case.aac_violations ++ [regulation]
      statutes_violated := case.statutes_violated ++ [regulation] }

/-- `ComprehensiveADREProcessor._extract_legal_violations`. -/
def extract_legal_violations (case : ComprehensiveADRECase)
    (text : String) : ComprehensiveADRECase :=
  let case := ars_patterns.foldl (fun case p =>
    (reFindIter true p text).foldl legal_ars_step case) case
  aac_patterns.foldl (fun case p =>
    (reFindIter true p text).foldl legal_aac_step case) case

/-- The per-category list read of
`getattr(case, f"{doc_type}_violations")`. -/
def getHoaList (case : ComprehensiveADRECase) : String → List String
  | "ccr" => case.ccr_violations
  | "bylaws" => case.bylaws_violations
  | "declaration" => case.declaration_violations
  | "architectural" => case.architectural_violations
  | "governing_doc" => case.governing_doc_violations
  | _ => []

/-- The per-category list write backing the
`getattr(...).append(violation)` mutation. -/
def setHoaList (case : ComprehensiveADRECase) (dt : String)
    (l : List String) : ComprehensiveADRECase :=
  match dt with
  | "ccr" => { case with ccr_violations := l }
  | "bylaws" => { case with bylaws_violations := l }
  | "declaration" => { case with declaration_violations := l }
  | "architectural" => { case with architectural_violations := l }
  | "governing_doc" => { case with governing_doc_violations := l }
  | _ => case

/-- The insertion-ordered items of `hoa_violation_patterns`. -/
def hoa_violation_sets : List (String × List RE) :=
  [("ccr", ccr_patterns), ("bylaws", bylaws_patterns),
   ("declaration", declaration_patterns),
   ("architectural", architectural_patterns),
   ("governing_doc", governing_doc_patterns)]

/-- The formatted entry of one `_extract_hoa_violations` finditer match
(`"general"` — i.e. the bare category — when group 1 is `None` or
empty). -/
def hoa_violation_of (dt : String) (m : ReMatch) : String :=
  let sectionOk :=
    match m.grp 1 with
    | some s => if s = "" then none else some s
    | none => none
  match sectionOk with
  | some s => pyUpper dt ++ " Section " ++ s
  | none => pyUpper dt

/-- One finditer match of `_extract_hoa_violations` for category `dt`.
The guarded append goes to the category's own list; the unconditional
second append goes to `governing_doc_violations` — for the
`governing_doc` category those are the same list, so its entries are
appended twice. -/
def hoa_violation_step (dt : String) (case : ComprehensiveADRECase)
    (m : ReMatch) : ComprehensiveADRECase :=
  let violation := hoa_violation_of dt m
  if (getHoaList case dt).contains violation then case
  else
    let case := setHoaList case dt (getHoaList case dt ++ [violation])
    { case with governing_doc_violations :=
        case.governing_doc_violations ++ [violation] }

/-- `ComprehensiveADREProcessor._extract_hoa_violations`. -/
def extract_hoa_violations (case : ComprehensiveADRECase)
    (text : String) : ComprehensiveADRECase :=
  hoa_violation_sets.foldl (fun case dtp =>
    dtp.2.foldl (fun case p =>
      (reFindIter true p text).foldl (hoa_violation_step dtp.1) case)
      case) case

/-- One monetary-fine finditer match of
`_extract_penalties_and_orders`. -/
def penalties_fine_step (case : ComprehensiveADRECase) (m : ReMatch) :
    ComprehensiveADRECase :=
  let fine := "$" ++ (m.grp 1).getD ""
  if case.monetary_fines.contains fine then case
  else
    { case with
      monetary_fines := case.monetary_fines ++ [fine]
      penalties := case.penalties ++ ["Monetary fine: " ++ fine] }

/-- One compliance-order pattern of `_extract_penalties_and_orders`. -/
def penalties_compliance_step (text : String)
    (case : ComprehensiveADRECase) (p : RE) : ComprehensiveADRECase :=
  if (reSearch true p text).isSome then
    if case.compliance_orders.contains "Compliance order issued" then case
    else
      { case with
        compliance_orders :=
          case.compliance_orders ++ ["Compliance order issued"]
        penalties := case.penalties ++ ["Compliance order issued"] }
  else case

/-- One cease-and-desist pattern of `_extract_penalties_and_orders`. -/
def penalties_cease_step (text : String) (case : ComprehensiveADRECase)
    (p : RE) : ComprehensiveADRECase :=
  if (reSearch true p text).isSome then
    if case.cease_desist_orders.contains "Cease and desist order" then case
    else
      { case with
        cease_desist_orders :=
          case.cease_desist_orders ++ ["Cease and desist order"]
        penalties := case.penalties ++ ["Cease and desist order"] }
  else case

/-- `ComprehensiveADREProcessor._extract_penalties_and_orders`. -/
def extract_penalties_and_orders (case : ComprehensiveADRECase)
    (text : String) : ComprehensiveADRECase :=
  let case := monetary_fine_patterns.foldl (fun case p =>
    (reFindIter true p text).foldl penalties_fine_step case) case
  let case :=
    compliance_order_patterns.foldl (penalties_compliance_step text) case
  cease_desist_patterns.foldl (penalties_cease_step text) case

/-- `_extract_outcomes`, findings-of-fact block. -/
def outcomes_findings (case : ComprehensiveADRECase) (text : String) :
    ComprehensiveADRECase :=
  { case with findings_of_fact := case.findings_of_fact ++
      ((reFindIter true findings_re text).map (fun (m : ReMatch) =>
        "Finding " ++ (m.grp 1).getD "" ++ ": " ++
          pyTake (pyStrip ((m.grp 2).getD "")) 200)) }

/-- `_extract_outcomes`, conclusions-of-law block. -/
def outcomes_conclusions (case : ComprehensiveADRECase) (text : String) :
    ComprehensiveADRECase :=
  { case with conclusions_of_law := case.conclusions_of_law ++
      ((reFindIter true conclusions_re text).map (fun (m : ReMatch) =>
        "Conclusion " ++ (m.grp 1).getD "" ++ ": " ++
          pyTake (pyStrip ((m.grp 2).getD "")) 200)) }

/-- `_extract_outcomes`, orders block: every order pattern that matches
appends its (stripped, truncated) capture. -/
def outcomes_order_step (text : String) (case : ComprehensiveADRECase)
    (p : RE) : ComprehensiveADRECase :=
  match reSearch true p text with
  | some m =>
    { case with orders := case.orders ++
        [pyTake (pyStrip ((m.grp 1).getD "")) 300] }
  | none => case

/-- `_extract_outcomes`, ruling-inference block. -/
def outcomes_ruling (case : ComprehensiveADRECase) :
    ComprehensiveADRECase :=
  if !case.orders.isEmpty || !case.penalties.isEmpty then
    if case.orders.any (fun o => pyContains (pyLower o) "dismiss") then
      { case with ruling := some "favor_respondent" }
    else if !case.monetary_fines.isEmpty ||
        !case.compliance_orders.isEmpty then
      { case with ruling := some "favor_petitioner" }
    else { case with ruling := some "mixed" }
  else case

/-- `ComprehensiveADREProcessor._extract_outcomes`. -/
def extract_outcomes (case : ComprehensiveADRECase) (text : String) :
    ComprehensiveADRECase :=
  outcomes_ruling
    (order_patterns.foldl (outcomes_order_step text)
      (outcomes_conclusions (outcomes_findings case text) text))

/-- One finditer match of `_extract_dates` for the pattern tagged
`dtype`, with `dateutil.parser.parse` abstracted as `parseDate`
(`none` models the parse exception swallowed by the bare `except`). -/
def dates_step (parseDate : String → Option String) (text : String)
    (dtype : String) (case : ComprehensiveADRECase) (m : ReMatch) :
    ComprehensiveADRECase :=
  match parseDate ((m.grp 1).getD "") with
  | none => case
  | some d =>
    if dtype = "hearing" then { case with hearing_date := some d }
    else if dtype = "decision" then { case with decision_date := some d }
    else if dtype = "filing" then { case with filing_date := some d }
    else
      let context := pyLower (String.mk
        (pySliceL text.toList (m.mstart - 50) (m.mend + 50)))
      if pyContains context "hearing" && case.hearing_date = none then
        { case with hearing_date := some d }
      else if (pyContains context "decision" ||
          pyContains context "order") && case.decision_date = none then
        { case with decision_date := some d }
      else case

/-- `ComprehensiveADREProcessor._extract_dates`. -/
def extract_dates (parseDate : String → Option String)
    (case : ComprehensiveADRECase) (text : String) :
    ComprehensiveADRECase :=
  date_patterns.foldl (fun case pt =>
    (reFindIter true pt.1 text).foldl
      (dates_step parseDate text pt.2) case) case

/-- `_classify_document`, indicator scan (later matching document types
overwrite earlier ones — the outer Python loop has no `break`). -/
def classify_scan (case : ComprehensiveADRECase) (text_upper : String) :
    ComprehensiveADRECase :=
  doc_type_indicators.foldl (fun case dti =>
    if dti.2.any (fun ind => pyContains text_upper ind) then
      { case with document_type := dti.1, decision_type := dti.1 }
    else case) case

/-- `_classify_document`, authority-weight block. -/
def classify_weight (case : ComprehensiveADRECase) :
    ComprehensiveADRECase :=
  if case.document_type = "final_order" ∨
      case.document_type = "decision_and_order" then
    { case with authority_weight := 3, is_primary_authority := true }
  else if case.document_type = "findings_of_fact" ∨
      case.document_type = "conclusions_of_law" then
    { case with authority_weight := (5 : Rat) / 2,
                is_primary_authority := true }
  else if case.document_type = "settlement" ∨
      case.document_type = "consent_order" then
    { case with authority_weight := 2 }
  else { case with authority_weight := 1 }

/-- `ComprehensiveADREProcessor._classify_document`. -/
def classify_document (case : ComprehensiveADRECase) (text : String) :
    ComprehensiveADRECase :=
  classify_weight (classify_scan case (pyUpper text))

/-- `ComprehensiveADREProcessor.extract_comprehensive_metadata`.
`text_clean` is `re.sub(r'\s+', ' ', text)`; the `text_lines` local of
the Python method is passed only to `_extract_judges`, which ignores it.
The Lean embedding is a total function: the only fallible call in the
Python body, date parsing, is abstracted by the `parseDate` parameter
whose `none` is exactly the caught parse failure. -/
def extract_comprehensive_metadata (parseDate : String → Option String)
    (text filename : String) : ComprehensiveADRECase :=
  let case : ComprehensiveADRECase :=
    { case_number := extract_case_number_from_filename filename }
  let text_clean := String.mk (collapseWsL text.toList)
  let case := extract_case_info case text_clean
  let case := extract_parties case text_clean
  let case := extract_attorneys case text
  let case := extract_judges case text
  let case := extract_legal_violations case text_clean
  let case := extract_hoa_violations case text_clean
  let case := extract_penalties_and_orders case text_clean
  let case := extract_outcomes case text
  let case := extract_dates parseDate case text
  classify_document case text

/-! ## Ingestion (src/enhanced_ingest.py, `ingest_document_comprehensive`)

External collaborators enter as parameters: `digest` is the SHA-256 hex
digest that `hashlib` computes from the file bytes; `loadOk`/`texts` are
the outcome of the PDF/DOCX loaders (`loadOk = false` models both
loaders failing, `texts` their extracted non-blank paragraph texts);
`legacyResult` is the outcome of the legacy `LegalDocumentProcessor` /
`LegalMetadataExtractor` subsystem (`none` models its caught exception);
`splitChunks` is langchain's `RecursiveCharacterTextSplitter.split_text`;
`parseDate` is `dateutil` as before.  `pathName`/`pathStem` are
`path.name`/`path.stem`. -/

/-- The metadata fields produced by the legacy legal-processing path. -/
structure LegacyMeta where
  document_type : String
  authority_weight : Rat
  is_primary_authority : Bool
  case_number : String
  jurisdiction : String
deriving Repr, DecidableEq

/-- The flat metadata mapping attached to a stored chunk.  The
comprehensive keys of `base_metadata` are carried by `comp` (they are
exactly the fields of the case record), the legacy keys by `legacy`
(present only when the comprehensive keys are absent, mirroring the
`"document_type" not in base_metadata` guard); `chunk_priority` is
`none` when the key was never written (no comprehensive case). -/
structure ChunkMeta where
  source : String
  sha256 : String
  comp : Option ComprehensiveADRECase := none
  legacy : Option LegacyMeta := none
  chunk_index : Nat := 0
  total_chunks : Nat := 0
  chunk_priority : Option String := none
deriving Repr, DecidableEq

/-- One stored collection entry (id, document text, metadata). -/
structure IngestEntry where
  eid : String
  document : String
  metadata : ChunkMeta
deriving Repr, DecidableEq

/-- Outcome of one `ingest_document_comprehensive` call: the Python
return value, the collection afterwards, and instrumentation recording
whether extraction/chunking work was performed. -/
structure IngestResult where
  success : Bool
  collection : List IngestEntry
  ranComprehensive : Bool
  ranLegacy : Bool
  addedChunks : Nat
deriving Repr, DecidableEq

/-- The chunk-priority assignment of `ingest_document_comprehensive`
(lines 186-195): scan the lowercased chunk text for the tier term sets. -/
def chunk_priority_of (chunk : String) : String :=
  let chunk_lower := pyLower chunk
  if ["order", "finding", "conclusion", "violation"].any
      (fun term => pyContains chunk_lower term) then "high"
  else if ["attorney", "esq", "judge", "hearing"].any
      (fun term => pyContains chunk_lower term) then "medium"
  else "normal"

/-- `ingest_document_comprehensive`. -/
def ingest_document_comprehensive
    (parseDate : String → Option String)
    (splitChunks : String → List String)
    (legacyResult : Option LegacyMeta)
    (collection : List IngestEntry)
    (pathName pathStem digest : String)
    (loadOk : Bool) (texts : List String)
    (enableLegal enableComprehensive : Bool) : IngestResult :=
  let existing := collection.filter (fun e => e.metadata.sha256 = digest)
  if !existing.isEmpty then
    -- "Skipping (already processed)": return True before any extraction
    { success := true, collection := collection, ranComprehensive := false,
      ranLegacy := false, addedChunks := 0 }
  else if !loadOk then
    { success := false, collection := collection, ranComprehensive := false,
      ranLegacy := false, addedChunks := 0 }
  else if texts.isEmpty then
    -- "No text extracted"
    { success := false, collection := collection, ranComprehensive := false,
      ranLegacy := false, addedChunks := 0 }
  else
    let full_text := pyJoin "\n" texts
    let comp :=
      if enableComprehensive then
        some (extract_comprehensive_metadata parseDate full_text pathName)
      else none
    let ranLegacy := enableLegal && full_text ≠ ""
    let legacy :=
      if ranLegacy then
        match legacyResult with
        | some lm => if comp.isSome then none else some lm
        | none => none
      else none
    let chunks := splitChunks full_text
    let entries := chunks.enum.map (fun ic =>
      { eid := pathStem ++ "_" ++ toString ic.1
        document := ic.2
        metadata :=
          { source := pathName, sha256 := digest, comp := comp,
            legacy := legacy, chunk_index := ic.1,
            total_chunks := chunks.length,
            chunk_priority :=
              if comp.isSome then some (chunk_priority_of ic.2)
              else none } : IngestEntry })
    { success := true, collection := collection ++ entries,
      ranComprehensive := enableComprehensive,
      ranLegacy := ranLegacy && legacyResult.isSome,
      addedChunks := entries.length }

/-! ## Hybrid retriever (src/src/hybrid_retriever.py)

A stored chunk as the retriever reads it back from a collection:
`metadata.get('source', '')`, `metadata.get('case_number', '')` and
`metadata.get('chunk_priority', 999)` — `none` in `chunk_priority`
models a chunk whose metadata lacks the key, so the `.get` default
`999 : int` is used.  `similarity_search` is the external vector store,
abstracted as a function from (project index, query, k) to results. -/

structure RChunk where
  content : String
  source : String
  case_number : String
  chunk_priority : Option String
deriving Repr, DecidableEq

/-- `HybridLegalRetriever._extract_case_number` patterns:
`\b(\d{2}[A-Z]-[A-Z]\d+(?:-REL)?(?:-RHG)?)\b`,
`\bcase\s+(?:number\s+)?(\d{2}[A-Z]-[A-Z]\d+(?:-REL)?(?:-RHG)?)\b`,
`\b(\d{2}[A-Z]-[A-Z]\d+)\b` (all with IGNORECASE). -/
def hybrid_case_patterns : List RE :=
  [rcat [.wordB, adreNumRe, .wordB],
   rcat [.wordB, rstr "case", rplus rWs,
     ropt (rcat [rstr "number", rplus rWs]), adreNumRe, .wordB],
   rcat [.wordB, .group 1 (rcat [rexact 2 rDig, rcls [('A', 'Z')],
     .chr '-', rcls [('A', 'Z')], rplus rDig]), .wordB]]

/-- `HybridLegalRetriever._extract_case_number`: first matching pattern,
group 1 uppercased. -/
def hybrid_extract_case_number (query : String) : Option String :=
  (firstGroup hybrid_case_patterns query).map pyUpper

/-- `[A-Z][a-z]+(?:\s+[A-Z]\.?\s*)?[A-Z][a-z]+` — the name shape of the
attorney-query patterns. -/
def hybridNameRe : RE :=
  rcat [rcls [('A', 'Z')], rplus (rcls [('a', 'z')]),
    ropt (rcat [rplus rWs, rcls [('A', 'Z')], ropt (.chr '.'), rmany rWs]),
    rcls [('A', 'Z')], rplus (rcls [('a', 'z')])]

/-- `HybridLegalRetriever._extract_attorney_name` patterns:
`attorney\s+(NAME)`, `(NAME),?\s+(?:Esq|attorney)`, `lawyer\s+(NAME)`. -/
def hybrid_attorney_patterns : List RE :=
  [rcat [rstr "attorney", rplus rWs, .group 1 hybridNameRe],
   rcat [.group 1 hybridNameRe, ropt (.chr ','), rplus rWs,
     ralt [rstr "Esq", rstr "attorney"]],
   rcat [rstr "lawyer", rplus rWs, .group 1 hybridNameRe]]

/-- `HybridLegalRetriever._extract_attorney_name`. -/
def hybrid_extract_attorney_name (query : String) : Option String :=
  firstGroup hybrid_attorney_patterns query

/-- The match test of `_search_by_metadata`:
`case_number in source or case_number == stored_case or
case_number.replace('-REL', '') in source`. -/
def metadataMatch (case_number : String) (c : RChunk) : Bool :=
  pyContains c.source case_number ||
    case_number = c.case_number ||
    pyContains c.source (pyReplace case_number "-REL" "")

/-- Stable insertion of `x` into an already-sorted list: `x` goes before
the first element strictly greater than it. -/
def insSorted (lt : RChunk → RChunk → Bool) (x : RChunk) :
    List RChunk → List RChunk
  | [] => [x]
  | y :: ys => if lt x y then x :: y :: ys else y :: insSorted lt x ys

/-- A stable ascending sort (extensionally the result of Python's stable
`list.sort`). -/
def pySortChunks (lt : RChunk → RChunk → Bool) (l : List RChunk) :
    List RChunk :=
  l.foldl (fun acc x => insSorted lt x acc) []

/-- Strict comparison of two chunks by the Python sort key
`metadata.get('chunk_priority', 999)` when both keys are strings. -/
def prioLt (a b : RChunk) : Bool :=
  pyStrLt (a.chunk_priority.getD "") (b.chunk_priority.getD "")

/-- The per-project body of `_search_by_metadata`: filter the project's
chunks by the match test, then `matching_docs.sort(key=lambda x: x[0])`.
Python's sort compares the keys only when the list has at least two
elements; comparing the string `"high"`/`"medium"`/`"normal"` keys works
(and happens to order the tiers correctly), while a comparison between a
string key and the integer default 999 raises `TypeError`, which the
surrounding `except` catches — that project then contributes nothing. -/
def searchProjectByMetadata (case_number : String) (db : List RChunk) :
    List RChunk :=
  let matching := db.filter (metadataMatch case_number)
  if matching.length ≤ 1 then matching
  else if matching.all (fun c => c.chunk_priority.isSome) then
    pySortChunks prioLt matching
  else if matching.all (fun c => c.chunk_priority.isNone) then
    matching
  else []

/-- `HybridLegalRetriever._search_by_metadata` over the ordered project
collections. -/
def search_by_metadata (dbs : List (List RChunk)) (case_number : String)
    (k : Nat) : List RChunk :=
  ((dbs.map (searchProjectByMetadata case_number)).flatten).take k

/-- `HybridLegalRetriever._search_by_attorney`: per-project similarity
search with `k // len(databases)` each, concatenated, capped at `k`. -/
def search_by_attorney (numDbs : Nat)
    (similarity : Nat → String → Nat → List RChunk)
    (attorney_name : String) (k : Nat) : List RChunk :=
  (((List.range numDbs).map
    (fun i => similarity i attorney_name (k / numDbs))).flatten).take k

/-- `HybridLegalRetriever._semantic_search`: per-project similarity
search with `max 1 (k // len(databases))` each, concatenated, capped. -/
def semantic_search (numDbs : Nat)
    (similarity : Nat → String → Nat → List RChunk)
    (query : String) (k : Nat) : List RChunk :=
  (((List.range numDbs).map
    (fun i => similarity i query (max 1 (k / numDbs)))).flatten).take k

/-- `HybridLegalRetriever.get_relevant_documents` (default `k = 6` in
the source): case-number metadata path first, then the attorney path,
then plain semantic search; each earlier path is taken only if it
produced at least one result. -/
def get_relevant_documents (dbs : List (List RChunk))
    (similarity : Nat → String → Nat → List RChunk)
    (query : String) (k : Nat) : List RChunk :=
  let fallback :=
    match hybrid_extract_attorney_name query with
    | some an =>
      let r := search_by_attorney dbs.length similarity an k
      if !r.isEmpty then r else semantic_search dbs.length similarity query k
    | none => semantic_search dbs.length similarity query k
  match hybrid_extract_case_number query with
  | some cn =>
    let r := search_by_metadata dbs cn k
    if !r.isEmpty then r else fallback
  | none => fallback

/-! ## Normal-form predicates for citation normalization -/

/-- The head character is whitespace. -/
def headWs : List Char → Bool
  | [] => false
  | c :: _ => pyIsSpace c

/-- Every whitespace character is a plain space and no two whitespace
characters are adjacent — the shape `re.sub(r'\s+', ' ')` leaves
behind. -/
def wsCollapsed : List Char → Bool
  | [] => true
  | [c] => !pyIsSpace c || c = ' '
  | c :: d :: rest =>
    (!pyIsSpace c || (c = ' ' && !pyIsSpace d)) && wsCollapsed (d :: rest)

/-- No character of the (mojibake) dash class other than `-` itself. -/
def noBadDash (s : List Char) : Bool :=
  s.all (fun c => !(c = 'â' || c = '€' || c = '“' || c = '”'))

/-- The normalized form is stable under renormalization: it neither ends
in a period or whitespace character (a trailing period exposes the
character before it; a trailing space is then stripped) nor contains the
three-character token `Â§Â` (which the mojibake section rule rewrites
again). -/
def normalFormStable (s : String) : Bool :=
  (match s.toList.reverse.head? with
   | some c => !(pyIsSpace c || c = '.')
   | none => true) && !pyContains s "Â§Â"

/-! ## Field-preservation predicates used by the verification -/

/-- The two case-identifier fields agree. -/
def presIds (a b : ComprehensiveADRECase) : Prop :=
  a.case_number = b.case_number ∧ a.adre_case_no = b.adre_case_no

/-- The six per-authority violation lists agree. -/
def presViols (a b : ComprehensiveADRECase) : Prop :=
  a.ars_violations = b.ars_violations ∧
  a.aac_violations = b.aac_violations ∧
  a.ccr_violations = b.ccr_violations ∧
  a.bylaws_violations = b.bylaws_violations ∧
  a.declaration_violations = b.declaration_violations ∧
  a.architectural_violations = b.architectural_violations

/-- The identifier fields and the six violation lists agree. -/
def presIdsViols (a b : ComprehensiveADRECase) : Prop :=
  presIds a b ∧ presViols a b

/-- The identifier fields and the governing-document category lists
agree, the A.R.S./A.A.C. lists are duplicate-free:
what `_extract_legal_violations` maintains. -/
def legalPres (x c : ComprehensiveADRECase) : Prop :=
  presIds x c ∧
  x.ccr_violations = c.ccr_violations ∧
  x.bylaws_violations = c.bylaws_violations ∧
  x.declaration_violations = c.declaration_violations ∧
  x.architectural_violations = c.architectural_violations ∧
  x.ars_violations.Nodup ∧ x.aac_violations.Nodup

/-- The identifier fields and the A.R.S./A.A.C. lists agree, the four
specific governing-document category lists are duplicate-free:
what `_extract_hoa_violations` maintains. -/
def hoaPres (x c : ComprehensiveADRECase) : Prop :=
  presIds x c ∧
  x.ars_violations = c.ars_violations ∧
  x.aac_violations = c.aac_violations ∧
  x.ccr_violations.Nodup ∧ x.bylaws_violations.Nodup ∧
  x.declaration_violations.Nodup ∧ x.architectural_violations.Nodup

/-! ## Shared helper lemmas -/

set_option maxRecDepth 10000

/-- A fold preserves any property preserved by its step function. -/
theorem foldl_pres {α β : Type} (P : β → Prop) (f : β → α → β)
    (h : ∀ b a, P b → P (f b a)) :
    ∀ (l : List α) (b : β), P b → P (l.foldl f b)
  | [], _, hb => hb
  | a :: l, b, hb => foldl_pres P f h l (f b a) (h b a hb)

/-- Appending a fresh element (Python's guarded `append`) keeps a list
duplicate-free. -/
theorem nodup_append_fresh {l : List String} {x : String}
    (hl : l.Nodup) (hx : l.contains x = false) : (l ++ [x]).Nodup := by
  have hxm : x ∉ l := by
    intro hm
    rw [show l.contains x = List.elem x l from rfl, List.elem_iff.mpr hm]
      at hx
    simp at hx
  rw [List.nodup_append]
  refine ⟨hl, List.nodup_singleton x, ?_⟩
  intro a ha hb
  simp only [List.mem_singleton] at hb
  subst hb
  exact hxm ha

/-- A miss of the project-search loop installs exactly the negative
cache entry for the normalized citation. -/
theorem resolve_citation_loop_none
    (sp : String → String → Option String) (cache : CitCache)
    (nz : String) :
    ∀ (ps : List String) (n : Nat) (c₂ : CitCache) (m : Nat),
      resolve_citation_loop sp cache nz ps n = (none, c₂, m) →
      c₂ = (nz, none) :: cache := by
  intro ps
  induction ps with
  | nil =>
    intro n c₂ m h
    unfold resolve_citation_loop at h
    have := congrArg (fun x => x.2.1) h
    simpa using this.symm
  | cons p rest ih =>
    intro n c₂ m h
    unfold resolve_citation_loop at h
    cases hs : sp nz p with
    | some d => rw [hs] at h; exact absurd (congrArg Prod.fst h) (by simp)
    | none => rw [hs] at h; exact ih _ _ _ h

/-- C7: citation resolution caches negative results by normalized
citation string: after a `resolve_citation` call returns the not-found
sentinel, any later call on a citation with the same normalized form
returns the cached sentinel directly, leaves the cache unchanged, and
performs zero project searches — whatever projects list is supplied. -/
theorem C7_theorem (sp : String → String → Option String)
    (cache : CitCache) (citation citation' : String)
    (projects projects' : List String) (c₂ : CitCache) (n : Nat)
    (h1 : resolve_citation sp cache citation projects = (none, c₂, n))
    (h2 : normalize_citation citation' = normalize_citation citation) :
    resolve_citation sp c₂ citation' projects' = (none, c₂, 0) := by
  unfold resolve_citation at h1 ⊢
  simp only [] at h1 ⊢
  rw [h2]
  cases hl : List.lookup (normalize_citation citation) cache with
  | some cached =>
    rw [hl] at h1
    have hcached : cached = none := by
      simpa using congrArg (fun x => x.1) h1
    have hcc : cache = c₂ := by
      simpa using congrArg (fun x => x.2.1) h1
    rw [← hcc, hl, hcached]
  | none =>
    rw [hl] at h1
    have hc2 := resolve_citation_loop_none sp cache
      (normalize_citation citation) projects 0 c₂ n h1
    subst hc2
    simp [List.lookup]

/-- C7 witness: a concrete miss (`".."` against one project with an
always-empty search) caches the sentinel; re-resolving the
same-normalizing citation `".."` against a different projects list hits
the cache with zero searches. -/
theorem C7_witness :
    resolve_citation (fun _ _ => none) ((normalize_citation "..", none) :: [])
      ".." ["p2", "p3"] = (none, (normalize_citation "..", none) :: [], 0) :=
  C7_theorem (fun _ _ => none) [] ".." ".." ["p1"] ["p2", "p3"]
    ((normalize_citation "..", none) :: []) 1 (by decide) rfl

/-- C6: ingestion is idempotent with respect to document content hash:
when the target collection already holds any entry with the document's
digest, `ingest_document_comprehensive` reports success, leaves the
collection unchanged, performs no comprehensive or legacy extraction,
and adds no chunks — regardless of every other input. -/
theorem C6_theorem (parseDate : String → Option String)
    (splitChunks : String → List String) (legacyResult : Option LegacyMeta)
    (collection : List IngestEntry)
    (pathName pathStem digest : String) (loadOk : Bool)
    (texts : List String) (enableLegal enableComprehensive : Bool)
    (h : ∃ e ∈ collection, e.metadata.sha256 = digest) :
    ingest_document_comprehensive parseDate splitChunks legacyResult
      collection pathName pathStem digest loadOk texts enableLegal
      enableComprehensive =
      { success := true, collection := collection,
        ranComprehensive := false, ranLegacy := false, addedChunks := 0 } := by
  obtain ⟨e, he, hd⟩ := h
  have hmem : e ∈ collection.filter (fun e => e.metadata.sha256 = digest) :=
    List.mem_filter.mpr ⟨he, by simp [hd]⟩
  have hne : (collection.filter
      (fun e => e.metadata.sha256 = digest)).isEmpty = false := by
    cases hf : collection.filter (fun e => e.metadata.sha256 = digest) with
    | nil => rw [hf] at hmem; cases hmem
    | cons a l => rfl
  unfold ingest_document_comprehensive
  simp only [hne, Bool.not_false, if_pos]

/-- C6 witness: a collection holding a chunk with digest `"h1"` makes
re-ingesting content with digest `"h1"` a successful no-op. -/
theorem C6_witness :
    ingest_document_comprehensive (fun _ => none) (fun t => [t]) none
      [{ eid := "x_0", document := "d",
         metadata := { source := "x.docx", sha256 := "h1" } }]
      "x.docx" "x" "h1" true ["d"] true true =
      { success := true,
        collection :=
          [{ eid := "x_0", document := "d",
             metadata := { source := "x.docx", sha256 := "h1" } }],
        ranComprehensive := false, ranLegacy := false, addedChunks := 0 } :=
  C6_theorem (fun _ => none) (fun t => [t]) none
    [{ eid := "x_0", document := "d",
       metadata := { source := "x.docx", sha256 := "h1" } }]
    "x.docx" "x" "h1" true ["d"] true true
    ⟨{ eid := "x_0", document := "d",
       metadata := { source := "x.docx", sha256 := "h1" } },
     List.mem_singleton.mpr rfl, rfl⟩

/-- C2 counterexample: normalization is *not* idempotent.  For the
citation `".."` one pass strips the trailing period giving `"."`, and a
second pass strips again giving `""`. -/
theorem C2_counterexample :
    normalize_citation (normalize_citation "..") ≠ normalize_citation ".." :=
  by decide

/-- C8 counterexample: no single name validator exhibits all three
claimed verdicts.  The attorney and judge validators *accept*
`"Respondent Jane Smith"` (the claim says the validator rejects it:
`respondent` is a stop-term only of the party validator), while the
party validator *accepts* `"ORDER"` (the claim says the validator
rejects it: the party validator has no single-word test and no `order`
stop-term). -/
theorem C8_counterexample :
    is_valid_attorney_name "Respondent Jane Smith" = true ∧
    is_valid_judge_name "Respondent Jane Smith" = true ∧
    is_valid_party_name "ORDER" = true := by decide

/-- C8 (amended): the three validators differ.  The attorney and judge
validators reject `"ORDER"` and accept `"Jane A. Smith"` but accept
`"Respondent Jane Smith"`; the party validator rejects
`"Respondent Jane Smith"` and accepts both `"Jane A. Smith"` and
`"ORDER"`.  In general: the attorney/judge validators reject names
shorter than 5 characters, single-word names, and names containing one
of their stop-terms; the party validator rejects names shorter than 3
characters and names containing one of its stop-terms (it has no
single-word test). -/
theorem C8_theorem :
    (is_valid_attorney_name "ORDER" = false ∧
     is_valid_judge_name "ORDER" = false) ∧
    (is_valid_attorney_name "Jane A. Smith" = true ∧
     is_valid_judge_name "Jane A. Smith" = true ∧
     is_valid_party_name "Jane A. Smith" = true) ∧
    (is_valid_attorney_name "Respondent Jane Smith" = true ∧
     is_valid_party_name "Respondent Jane Smith" = false ∧
     is_valid_party_name "ORDER" = true) ∧
    (∀ n : String, n.toList.length < 5 →
      is_valid_attorney_name n = false ∧ is_valid_judge_name n = false) ∧
    (∀ n : String, n.toList.length < 3 → is_valid_party_name n = false) ∧
    (∀ n : String, (pySplit n).length < 2 →
      is_valid_attorney_name n = false ∧ is_valid_judge_name n = false) ∧
    (∀ n t : String,
      t ∈ ["copy", "order", "decision", "arizona", "department",
           "transmitted"] →
      pyContains (pyLower n) (pyLower t) = true →
      is_valid_attorney_name n = false) ∧
    (∀ n t : String,
      t ∈ ["copy", "order", "decision", "arizona", "department",
           "transmitted", "page"] →
      pyContains (pyLower n) (pyLower t) = true →
      is_valid_judge_name n = false) ∧
    (∀ n t : String,
      t ∈ ["respondent", "petitioner", "complainant", "matter", "case",
           "docket"] →
      pyContains (pyLower n) t = true →
      is_valid_party_name n = false) := by
  refine ⟨by decide, by decide, by decide, ?_, ?_, ?_, ?_, ?_, ?_⟩
  · intro n h
    have h' : n.length < 5 := h
    have hc : (decide (n = "") || decide (n.toList.length < 5)) = true := by
      simp [h']
    constructor <;>
    · simp only [is_valid_attorney_name, is_valid_judge_name]
      split
      · rfl
      · next hcond => exact absurd hc hcond
  · intro n h
    have h' : n.length < 3 := h
    have hc : (decide (n = "") || decide (n.toList.length < 3)) = true := by
      simp [h']
    simp only [is_valid_party_name]
    split
    · rfl
    · next hcond => exact absurd hc hcond
  · intro n h
    constructor <;>
    · simp only [is_valid_attorney_name, is_valid_judge_name]
      repeat' split
      all_goals rfl
  · intro n t ht hc
    simp only [is_valid_attorney_name]
    split
    · rfl
    · split
      · rfl
      · simp only [Bool.not_eq_false']
        exact List.any_eq_true.mpr ⟨t, ht, hc⟩
  · intro n t ht hc
    simp only [is_valid_judge_name]
    split
    · rfl
    · split
      · rfl
      · simp only [Bool.not_eq_false']
        exact List.any_eq_true.mpr ⟨t, ht, hc⟩
  · intro n t ht hc
    simp only [is_valid_party_name]
    split
    · rfl
    · simp only [Bool.not_eq_false']
      exact List.any_eq_true.mpr ⟨t, ht, hc⟩

/-- C8 witness: concrete instances of the universal clauses — `"Bob"`
(4 chars) fails the attorney validator, `"Zy"` fails the party
validator, `"Page Two Header"` fails the judge validator through the
`page` stop-term. -/
theorem C8_witness :
    is_valid_attorney_name "Bob" = false ∧
    is_valid_party_name "Zy" = false ∧
    is_valid_judge_name "Page Two Header" = false := by
  obtain ⟨-, -, -, h4, h5, -, -, h8, -⟩ := C8_theorem
  exact ⟨(h4 "Bob" (by decide)).1, h5 "Zy" (by decide),
    h8 "Page Two Header" "page" (by decide) (by decide)⟩

/-- C9 counterexample: a chunk whose text is just `"Esq"` is assigned
tier `"medium"` at ingestion although it contains none of the claimed
medium terms `{attorney, judge, hearing}` (the code's medium term set
also contains `esq`, which the claim omits). -/
theorem C9_counterexample :
    ((ingest_document_comprehensive (fun _ => none) (fun t => [t]) none []
        "x.docx" "x" "h" true ["Esq"] true true).collection.map
      (fun e => e.metadata.chunk_priority)) = [some "medium"] ∧
    pyContains (pyLower "Esq") "attorney" = false ∧
    pyContains (pyLower "Esq") "judge" = false ∧
    pyContains (pyLower "Esq") "hearing" = false := by decide

/-- C9 (amended): the priority tier of a chunk is a function of its
lowercase text alone, with tier `"high"` exactly when one of
`{order, finding, conclusion, violation}` occurs, tier `"medium"`
exactly when no high term occurs and one of
`{attorney, esq, judge, hearing}` does (the code's medium set includes
`esq`), and `"normal"` exactly otherwise; and at ingestion (with
comprehensive processing enabled) every newly stored chunk carries
exactly that tier of its own text. -/
theorem C9_theorem :
    (∀ chunk : String,
      (chunk_priority_of chunk = "high" ↔
        ∃ t ∈ ["order", "finding", "conclusion", "violation"],
          pyContains (pyLower chunk) t = true) ∧
      (chunk_priority_of chunk = "medium" ↔
        (∀ t ∈ ["order", "finding", "conclusion", "violation"],
          pyContains (pyLower chunk) t = false) ∧
        ∃ t ∈ ["attorney", "esq", "judge", "hearing"],
          pyContains (pyLower chunk) t = true) ∧
      (chunk_priority_of chunk = "normal" ↔
        (∀ t ∈ ["order", "finding", "conclusion", "violation"],
          pyContains (pyLower chunk) t = false) ∧
        (∀ t ∈ ["attorney", "esq", "judge", "hearing"],
          pyContains (pyLower chunk) t = false))) ∧
    (∀ (parseDate : String → Option String)
        (splitChunks : String → List String)
        (legacyResult : Option LegacyMeta)
        (collection : List IngestEntry)
        (pathName pathStem digest : String) (loadOk : Bool)
        (texts : List String) (enableLegal : Bool) (e : IngestEntry),
      e ∈ (ingest_document_comprehensive parseDate splitChunks legacyResult
            collection pathName pathStem digest loadOk texts enableLegal
            true).collection →
      e ∈ collection ∨
        e.metadata.chunk_priority = some (chunk_priority_of e.document)) := by
  constructor
  · intro chunk
    simp only [chunk_priority_of]
    by_cases h1 : (["order", "finding", "conclusion", "violation"].any
        fun term => pyContains (pyLower chunk) term) = true
    · rw [if_pos h1]
      rw [List.any_eq_true] at h1
      refine ⟨iff_of_true rfl h1, iff_of_false (by decide) ?_,
        iff_of_false (by decide) ?_⟩
      · rintro ⟨hall, -⟩
        obtain ⟨t, ht, hc⟩ := h1
        rw [hall t ht] at hc
        cases hc
      · rintro ⟨hall, -⟩
        obtain ⟨t, ht, hc⟩ := h1
        rw [hall t ht] at hc
        cases hc
    · rw [if_neg h1]
      have hall1 : ∀ t ∈ ["order", "finding", "conclusion", "violation"],
          pyContains (pyLower chunk) t = false := by
        intro t ht
        by_contra hne
        exact h1 (List.any_eq_true.mpr ⟨t, ht,
          by revert hne; cases pyContains (pyLower chunk) t <;> simp⟩)
      by_cases h2 : (["attorney", "esq", "judge", "hearing"].any
          fun term => pyContains (pyLower chunk) term) = true
      · rw [if_pos h2]
        rw [List.any_eq_true] at h2
        refine ⟨iff_of_false (by decide) ?_,
          iff_of_true rfl ⟨hall1, h2⟩, iff_of_false (by decide) ?_⟩
        · intro hex
          obtain ⟨t, ht, hc⟩ := hex
          rw [hall1 t ht] at hc
          cases hc
        · rintro ⟨-, hall2⟩
          obtain ⟨t, ht, hc⟩ := h2
          rw [hall2 t ht] at hc
          cases hc
      · rw [if_neg h2]
        have hall2 : ∀ t ∈ ["attorney", "esq", "judge", "hearing"],
            pyContains (pyLower chunk) t = false := by
          intro t ht
          by_contra hne
          exact h2 (List.any_eq_true.mpr ⟨t, ht,
            by revert hne; cases pyContains (pyLower chunk) t <;> simp⟩)
        refine ⟨iff_of_false (by decide) ?_,
          iff_of_false (by decide) ?_, iff_of_true rfl ⟨hall1, hall2⟩⟩
        · intro hex
          obtain ⟨t, ht, hc⟩ := hex
          rw [hall1 t ht] at hc
          cases hc
        · rintro ⟨-, hex⟩
          obtain ⟨t, ht, hc⟩ := hex
          rw [hall2 t ht] at hc
          cases hc
  · intro parseDate splitChunks legacyResult collection pathName pathStem
      digest loadOk texts enableLegal e he
    unfold ingest_document_comprehensive at he
    dsimp only at he
    split at he
    · exact Or.inl he
    · split at he
      · exact Or.inl he
      · split at he
        · exact Or.inl he
        · simp only [] at he
          rw [List.mem_append] at he
          cases he with
          | inl h => exact Or.inl h
          | inr h =>
            right
            rw [List.mem_map] at h
            obtain ⟨ic, -, hic⟩ := h
            rw [← hic]
            simp

/-- C9 witness: ingesting the single-chunk text `"Esq"` stores chunks
whose tier is exactly the tier function of their own text. -/
theorem C9_witness :
    ((ingest_document_comprehensive (fun _ => none) (fun t => [t]) none []
        "x.docx" "x" "h" true ["Esq"] true true).collection.all
      (fun e =>
        e.metadata.chunk_priority == some (chunk_priority_of e.document)))
      = true := by
  rw [List.all_eq_true]
  intro e he
  rcases C9_theorem.2 (fun _ => none) (fun t => [t]) none [] "x.docx" "x"
      "h" true ["Esq"] true e he with h | h
  · cases h
  · exact beq_iff_eq.mpr h

/-- A failed petitioner-attorney pattern scan leaves the case
unchanged. -/
theorem attorneys_petitioner_none {c : ComprehensiveADRECase}
    {text : String}
    (h : firstValidName petitioner_attorney_patterns
      is_valid_attorney_name text = none) :
    attorneys_petitioner c text = c := by
  unfold attorneys_petitioner
  rw [h]

/-- A failed respondent-attorney pattern scan leaves the case
unchanged. -/
theorem attorneys_respondent_none {c : ComprehensiveADRECase}
    {text : String}
    (h : firstValidName respondent_attorney_patterns
      is_valid_attorney_name text = none) :
    attorneys_respondent c text = c := by
  unfold attorneys_respondent
  rw [h]

/-- A failed AAG pattern scan leaves the case unchanged. -/
theorem attorneys_aag_none {c : ComprehensiveADRECase} {text : String}
    (h : firstValidName aag_patterns is_valid_attorney_name text = none) :
    attorneys_aag c text = c := by
  unfold attorneys_aag
  rw [h]

/-- The pro-se block never changes the attorney role fields. -/
theorem attorneys_pro_se_fields (c : ComprehensiveADRECase)
    (text : String) :
    (attorneys_pro_se c text).petitioner_attorney =
      c.petitioner_attorney ∧
    (attorneys_pro_se c text).respondent_attorney =
      c.respondent_attorney := by
  unfold attorneys_pro_se
  constructor <;> (repeat' first | split | dsimp only)

/-- C10: positional attorney-role defaulting.  When neither role-labeled
attorney pattern list yields a validated match, the Assistant Attorney
General patterns yield none either, and the Esq.-title scan yields
exactly one validated name, that name becomes the respondent's attorney
with the petitioner's left unset; exactly two make the first the
petitioner's and the second the respondent's; three or more leave both
unset. -/
theorem C10_theorem (c : ComprehensiveADRECase) (text : String)
    (hpet : c.petitioner_attorney = none)
    (hresp : c.respondent_attorney = none)
    (h1 : firstValidName petitioner_attorney_patterns
      is_valid_attorney_name text = none)
    (h2 : firstValidName respondent_attorney_patterns
      is_valid_attorney_name text = none)
    (h3 : firstValidName aag_patterns is_valid_attorney_name text = none) :
    (∀ a, esq_attorney_names text = [a] →
      (extract_attorneys c text).respondent_attorney = some a ∧
      (extract_attorneys c text).petitioner_attorney = none) ∧
    (∀ a b, esq_attorney_names text = [a, b] →
      (extract_attorneys c text).petitioner_attorney = some a ∧
      (extract_attorneys c text).respondent_attorney = some b) ∧
    (3 ≤ (esq_attorney_names text).length →
      (extract_attorneys c text).petitioner_attorney = none ∧
      (extract_attorneys c text).respondent_attorney = none) := by
  unfold extract_attorneys
  rw [attorneys_petitioner_none h1, attorneys_respondent_none h2]
  refine ⟨?_, ?_, ?_⟩
  · intro a ha
    rw [ha]
    have hesq : attorneys_esq_default c [a] =
        { c with respondent_attorney := some a } := by
      unfold attorneys_esq_default
      simp [hpet, hresp]
    rw [hesq, attorneys_aag_none h3]
    exact ⟨(attorneys_pro_se_fields _ _).2.trans rfl,
      (attorneys_pro_se_fields _ _).1.trans hpet⟩
  · intro a b hab
    rw [hab]
    have hesq : attorneys_esq_default c [a, b] =
        { c with petitioner_attorney := some a,
                 respondent_attorney := some b } := by
      unfold attorneys_esq_default
      simp [hpet, hresp]
    rw [hesq, attorneys_aag_none h3]
    exact ⟨(attorneys_pro_se_fields _ _).1.trans rfl,
      (attorneys_pro_se_fields _ _).2.trans rfl⟩
  · intro hlen
    have hesq : attorneys_esq_default c (esq_attorney_names text) = c := by
      rcases hshape : esq_attorney_names text with - | ⟨a, - | ⟨b, - | ⟨x, xs⟩⟩⟩
      · unfold attorneys_esq_default
        simp
      · rw [hshape] at hlen
        simp at hlen
      · rw [hshape] at hlen
        simp at hlen
      · unfold attorneys_esq_default
        split <;> rfl
    rw [hesq, attorneys_aag_none h3]
    exact ⟨(attorneys_pro_se_fields _ _).1.trans hpet,
      (attorneys_pro_se_fields _ _).2.trans hresp⟩

/-- C10 witness: the text `"John Smith, Esq."` has no role-labeled
attorney and exactly one validated Esq. name, which is assigned as the
respondent's attorney, the petitioner's staying unset. -/
theorem C10_witness :
    (extract_attorneys { case_number := "" } "John Smith, Esq."
      ).respondent_attorney = some "John Smith" ∧
    (extract_attorneys { case_number := "" } "John Smith, Esq."
      ).petitioner_attorney = none :=
  (C10_theorem { case_number := "" } "John Smith, Esq." rfl rfl
    (by decide) (by decide) (by decide)).1 "John Smith" (by decide)

theorem presIdsViols_trans {a b c : ComprehensiveADRECase}
    (h1 : presIdsViols a b) (h2 : presIdsViols b c) : presIdsViols a c := by
  obtain ⟨⟨x1, x2⟩, x3, x4, x5, x6, x7, x8⟩ := h1
  obtain ⟨⟨y1, y2⟩, y3, y4, y5, y6, y7, y8⟩ := h2
  exact ⟨⟨x1.trans y1, x2.trans y2⟩, x3.trans y3, x4.trans y4, x5.trans y5,
    x6.trans y6, x7.trans y7, x8.trans y8⟩

theorem parties_petitioner_pres (c : ComprehensiveADRECase) (t : String) :
    presIdsViols (parties_petitioner c t) c := by
  unfold parties_petitioner
  repeat' first | split | dsimp only
  all_goals exact ⟨⟨rfl, rfl⟩, rfl, rfl, rfl, rfl, rfl, rfl⟩

theorem parties_respondent_pres (c : ComprehensiveADRECase) (t : String) :
    presIdsViols (parties_respondent c t) c := by
  unfold parties_respondent
  repeat' first | split | dsimp only
  all_goals exact ⟨⟨rfl, rfl⟩, rfl, rfl, rfl, rfl, rfl, rfl⟩

theorem parties_hoa_step_pres (t : String) (b : ComprehensiveADRECase)
    (p : RE) : presIdsViols (parties_hoa_step t b p) b := by
  unfold parties_hoa_step
  repeat' first | split | dsimp only
  all_goals exact ⟨⟨rfl, rfl⟩, rfl, rfl, rfl, rfl, rfl, rfl⟩

theorem parties_management_pres (c : ComprehensiveADRECase) (t : String) :
    presIdsViols (parties_management c t) c := by
  unfold parties_management
  repeat' first | split | dsimp only
  all_goals exact ⟨⟨rfl, rfl⟩, rfl, rfl, rfl, rfl, rfl, rfl⟩

theorem extract_parties_pres (c : ComprehensiveADRECase) (t : String) :
    presIdsViols (extract_parties c t) c := by
  unfold extract_parties parties_hoa
  have h1 := parties_petitioner_pres c t
  have h2 := parties_respondent_pres (parties_petitioner c t) t
  have h3 : presIdsViols
      (List.foldl (parties_hoa_step t)
        (parties_respondent (parties_petitioner c t) t) hoa_patterns)
      (parties_respondent (parties_petitioner c t) t) :=
    foldl_pres
      (fun x => presIdsViols x (parties_respondent (parties_petitioner c t) t))
      (parties_hoa_step t)
      (fun b p hb => presIdsViols_trans (parties_hoa_step_pres t b p) hb)
      hoa_patterns _ ⟨⟨rfl, rfl⟩, rfl, rfl, rfl, rfl, rfl, rfl⟩
  exact presIdsViols_trans (parties_management_pres _ _)
    (presIdsViols_trans h3 (presIdsViols_trans h2 h1))

theorem attorneys_petitioner_pres (c : ComprehensiveADRECase)
    (t : String) : presIdsViols (attorneys_petitioner c t) c := by
  unfold attorneys_petitioner
  repeat' first | split | dsimp only
  all_goals exact ⟨⟨rfl, rfl⟩, rfl, rfl, rfl, rfl, rfl, rfl⟩

theorem attorneys_respondent_pres (c : ComprehensiveADRECase)
    (t : String) : presIdsViols (attorneys_respondent c t) c := by
  unfold attorneys_respondent
  repeat' first | split | dsimp only
  all_goals exact ⟨⟨rfl, rfl⟩, rfl, rfl, rfl, rfl, rfl, rfl⟩

theorem attorneys_esq_default_pres (c : ComprehensiveADRECase)
    (l : List String) : presIdsViols (attorneys_esq_default c l) c := by
  unfold attorneys_esq_default
  repeat' first | split | dsimp only
  all_goals exact ⟨⟨rfl, rfl⟩, rfl, rfl, rfl, rfl, rfl, rfl⟩

theorem attorneys_aag_pres (c : ComprehensiveADRECase) (t : String) :
    presIdsViols (attorneys_aag c t) c := by
  unfold attorneys_aag
  repeat' first | split | dsimp only
  all_goals exact ⟨⟨rfl, rfl⟩, rfl, rfl, rfl, rfl, rfl, rfl⟩

theorem attorneys_pro_se_pres (c : ComprehensiveADRECase) (t : String) :
    presIdsViols (attorneys_pro_se c t) c := by
  unfold attorneys_pro_se
  repeat' first | split | dsimp only
  all_goals exact ⟨⟨rfl, rfl⟩, rfl, rfl, rfl, rfl, rfl, rfl⟩

theorem extract_attorneys_pres (c : ComprehensiveADRECase) (t : String) :
    presIdsViols (extract_attorneys c t) c := by
  unfold extract_attorneys
  exact presIdsViols_trans (attorneys_pro_se_pres _ _)
    (presIdsViols_trans (attorneys_aag_pres _ _)
      (presIdsViols_trans (attorneys_esq_default_pres _ _)
        (presIdsViols_trans (attorneys_respondent_pres _ _)
          (attorneys_petitioner_pres _ _))))

theorem judges_alj_pres (c : ComprehensiveADRECase) (t : String) :
    presIdsViols (judges_alj c t) c := by
  unfold judges_alj
  repeat' first | split | dsimp only
  all_goals exact ⟨⟨rfl, rfl⟩, rfl, rfl, rfl, rfl, rfl, rfl⟩

theorem judges_other_pres (c : ComprehensiveADRECase) (t : String) :
    presIdsViols (judges_other c t) c := by
  unfold judges_other
  repeat' first | split | dsimp only
  all_goals exact ⟨⟨rfl, rfl⟩, rfl, rfl, rfl, rfl, rfl, rfl⟩

theorem extract_judges_pres (c : ComprehensiveADRECase) (t : String) :
    presIdsViols (extract_judges c t) c := by
  unfold extract_judges
  exact presIdsViols_trans (judges_other_pres _ _) (judges_alj_pres _ _)

theorem penalties_fine_step_pres (b : ComprehensiveADRECase)
    (m : ReMatch) : presIdsViols (penalties_fine_step b m) b := by
  unfold penalties_fine_step
  repeat' first | split | dsimp only
  all_goals exact ⟨⟨rfl, rfl⟩, rfl, rfl, rfl, rfl, rfl, rfl⟩

theorem penalties_compliance_step_pres (t : String)
    (b : ComprehensiveADRECase) (p : RE) :
    presIdsViols (penalties_compliance_step t b p) b := by
  unfold penalties_compliance_step
  repeat' first | split | dsimp only
  all_goals exact ⟨⟨rfl, rfl⟩, rfl, rfl, rfl, rfl, rfl, rfl⟩

theorem penalties_cease_step_pres (t : String)
    (b : ComprehensiveADRECase) (p : RE) :
    presIdsViols (penalties_cease_step t b p) b := by
  unfold penalties_cease_step
  repeat' first | split | dsimp only
  all_goals exact ⟨⟨rfl, rfl⟩, rfl, rfl, rfl, rfl, rfl, rfl⟩

theorem extract_penalties_pres (c : ComprehensiveADRECase) (t : String) :
    presIdsViols (extract_penalties_and_orders c t) c := by
  unfold extract_penalties_and_orders
  have h1 : presIdsViols
      (List.foldl (fun case p =>
        (reFindIter true p t).foldl penalties_fine_step case)
        c monetary_fine_patterns) c :=
    foldl_pres (fun x => presIdsViols x c) _
      (fun b p hb =>
        foldl_pres (fun x => presIdsViols x c) penalties_fine_step
          (fun b' m hb' =>
            presIdsViols_trans (penalties_fine_step_pres b' m) hb')
          _ b hb)
      monetary_fine_patterns c ⟨⟨rfl, rfl⟩, rfl, rfl, rfl, rfl, rfl, rfl⟩
  have h2 := foldl_pres (fun x => presIdsViols x c)
    (penalties_compliance_step t)
    (fun b p hb =>
      presIdsViols_trans (penalties_compliance_step_pres t b p) hb)
    compliance_order_patterns _ h1
  exact foldl_pres (fun x => presIdsViols x c) (penalties_cease_step t)
    (fun b p hb => presIdsViols_trans (penalties_cease_step_pres t b p) hb)
    cease_desist_patterns _ h2

theorem outcomes_findings_pres (c : ComprehensiveADRECase) (t : String) :
    presIdsViols (outcomes_findings c t) c :=
  ⟨⟨rfl, rfl⟩, rfl, rfl, rfl, rfl, rfl, rfl⟩

theorem outcomes_conclusions_pres (c : ComprehensiveADRECase)
    (t : String) : presIdsViols (outcomes_conclusions c t) c :=
  ⟨⟨rfl, rfl⟩, rfl, rfl, rfl, rfl, rfl, rfl⟩

theorem outcomes_order_step_pres (t : String) (b : ComprehensiveADRECase)
    (p : RE) : presIdsViols (outcomes_order_step t b p) b := by
  unfold outcomes_order_step
  repeat' first | split | dsimp only
  all_goals exact ⟨⟨rfl, rfl⟩, rfl, rfl, rfl, rfl, rfl, rfl⟩

theorem outcomes_ruling_pres (c : ComprehensiveADRECase) :
    presIdsViols (outcomes_ruling c) c := by
  unfold outcomes_ruling
  repeat' first | split | dsimp only
  all_goals exact ⟨⟨rfl, rfl⟩, rfl, rfl, rfl, rfl, rfl, rfl⟩

theorem extract_outcomes_pres (c : ComprehensiveADRECase) (t : String) :
    presIdsViols (extract_outcomes c t) c := by
  unfold extract_outcomes
  refine presIdsViols_trans (outcomes_ruling_pres _) ?_
  exact foldl_pres (fun x => presIdsViols x c) (outcomes_order_step t)
    (fun b p hb => presIdsViols_trans (outcomes_order_step_pres t b p) hb)
    order_patterns _
    (presIdsViols_trans (outcomes_conclusions_pres _ _)
      (outcomes_findings_pres _ _))

theorem dates_step_pres (pd : String → Option String) (t dtype : String)
    (b : ComprehensiveADRECase) (m : ReMatch) :
    presIdsViols (dates_step pd t dtype b m) b := by
  unfold dates_step
  repeat' first | split | dsimp only
  all_goals exact ⟨⟨rfl, rfl⟩, rfl, rfl, rfl, rfl, rfl, rfl⟩

theorem extract_dates_pres (pd : String → Option String)
    (c : ComprehensiveADRECase) (t : String) :
    presIdsViols (extract_dates pd c t) c := by
  unfold extract_dates
  exact foldl_pres (fun x => presIdsViols x c) _
    (fun b pt hb =>
      foldl_pres (fun x => presIdsViols x c) (dates_step pd t pt.2)
        (fun b' m hb' =>
          presIdsViols_trans (dates_step_pres pd t pt.2 b' m) hb')
        _ b hb)
    date_patterns c ⟨⟨rfl, rfl⟩, rfl, rfl, rfl, rfl, rfl, rfl⟩

theorem classify_scan_pres (c : ComprehensiveADRECase) (tu : String) :
    presIdsViols (classify_scan c tu) c := by
  unfold classify_scan
  refine foldl_pres (fun x => presIdsViols x c) _ (fun b dti hb => ?_)
    doc_type_indicators c ⟨⟨rfl, rfl⟩, rfl, rfl, rfl, rfl, rfl, rfl⟩
  refine presIdsViols_trans ?_ hb
  repeat' first | split | dsimp only
  all_goals exact ⟨⟨rfl, rfl⟩, rfl, rfl, rfl, rfl, rfl, rfl⟩

theorem classify_weight_pres (c : ComprehensiveADRECase) :
    presIdsViols (classify_weight c) c := by
  unfold classify_weight
  repeat' first | split | dsimp only
  all_goals exact ⟨⟨rfl, rfl⟩, rfl, rfl, rfl, rfl, rfl, rfl⟩

theorem classify_document_pres (c : ComprehensiveADRECase) (t : String) :
    presIdsViols (classify_document c t) c := by
  unfold classify_document
  exact presIdsViols_trans (classify_weight_pres _) (classify_scan_pres _ _)

theorem legal_ars_step_pres {c b : ComprehensiveADRECase} (m : ReMatch)
    (hb : legalPres b c) : legalPres (legal_ars_step b m) c := by
  obtain ⟨hids, h1, h2, h3, h4, hars, haac⟩ := hb
  by_cases hc :
      b.ars_violations.contains ("A.R.S. § " ++ (m.grp 1).getD "") = true
  · simp only [legal_ars_step]
    rw [if_pos hc]
    exact ⟨hids, h1, h2, h3, h4, hars, haac⟩
  · simp only [legal_ars_step]
    rw [if_neg hc]
    exact ⟨hids, h1, h2, h3, h4,
      nodup_append_fresh hars (by simpa using hc), haac⟩

theorem legal_aac_step_pres {c b : ComprehensiveADRECase} (m : ReMatch)
    (hb : legalPres b c) : legalPres (legal_aac_step b m) c := by
  obtain ⟨hids, h1, h2, h3, h4, hars, haac⟩ := hb
  by_cases hc :
      b.aac_violations.contains ("A.A.C. R" ++ (m.grp 1).getD "") = true
  · simp only [legal_aac_step]
    rw [if_pos hc]
    exact ⟨hids, h1, h2, h3, h4, hars, haac⟩
  · simp only [legal_aac_step]
    rw [if_neg hc]
    exact ⟨hids, h1, h2, h3, h4, hars,
      nodup_append_fresh haac (by simpa using hc)⟩

/-- `_extract_legal_violations` keeps the identifier fields and the
governing-document category lists, and keeps the A.R.S. / A.A.C. lists
duplicate-free. -/
theorem extract_legal_violations_pres {c b : ComprehensiveADRECase}
    (t : String) (hb : legalPres b c) :
    legalPres (extract_legal_violations b t) c := by
  unfold extract_legal_violations
  have h1 := foldl_pres (fun x => legalPres x c)
    (fun case p => List.foldl legal_ars_step case (reFindIter true p t))
    (fun b' p hb' =>
      foldl_pres (fun x => legalPres x c) legal_ars_step
        (fun b'' m hb'' => legal_ars_step_pres m hb'')
        (reFindIter true p t) b' hb')
    ars_patterns b hb
  exact foldl_pres (fun x => legalPres x c)
    (fun case p => List.foldl legal_aac_step case (reFindIter true p t))
    (fun b' p hb' =>
      foldl_pres (fun x => legalPres x c) legal_aac_step
        (fun b'' m hb'' => legal_aac_step_pres m hb'')
        (reFindIter true p t) b' hb')
    aac_patterns _ h1

theorem hoa_violation_step_pres {c : ComprehensiveADRECase} (dt : String)
    (b : ComprehensiveADRECase) (m : ReMatch) (hb : hoaPres b c) :
    hoaPres (hoa_violation_step dt b m) c := by
  obtain ⟨hids, hars, haac, n1, n2, n3, n4⟩ := hb
  simp only [hoa_violation_step]
  generalize hoa_violation_of dt m = V
  by_cases hc : (getHoaList b dt).contains V = true
  · rw [if_pos hc]
    exact ⟨hids, hars, haac, n1, n2, n3, n4⟩
  · rw [if_neg hc]
    have hcf : (getHoaList b dt).contains V = false := by simpa using hc
    by_cases e1 : dt = "ccr"
    · subst e1
      rw [show getHoaList b "ccr" = b.ccr_violations from rfl] at hcf
      exact ⟨hids, hars, haac, nodup_append_fresh n1 hcf, n2, n3, n4⟩
    by_cases e2 : dt = "bylaws"
    · subst e2
      rw [show getHoaList b "bylaws" = b.bylaws_violations from rfl] at hcf
      exact ⟨hids, hars, haac, n1, nodup_append_fresh n2 hcf, n3, n4⟩
    by_cases e3 : dt = "declaration"
    · subst e3
      rw [show getHoaList b "declaration" = b.declaration_violations
        from rfl] at hcf
      exact ⟨hids, hars, haac, n1, n2, nodup_append_fresh n3 hcf, n4⟩
    by_cases e4 : dt = "architectural"
    · subst e4
      rw [show getHoaList b "architectural" = b.architectural_violations
        from rfl] at hcf
      exact ⟨hids, hars, haac, n1, n2, n3, nodup_append_fresh n4 hcf⟩
    by_cases e5 : dt = "governing_doc"
    · subst e5
      exact ⟨hids, hars, haac, n1, n2, n3, n4⟩
    · have hset : ∀ l, setHoaList b dt l = b := by
        intro l
        simp [setHoaList, e1, e2, e3, e4, e5]
      rw [hset]
      refine ⟨hids, hars, haac, ?_, ?_, ?_, ?_⟩ <;> assumption

set_option maxHeartbeats 1000000 in
/-- `_extract_hoa_violations` keeps the identifier fields and the
A.R.S. / A.A.C. lists, and keeps the four specific governing-document
category lists duplicate-free. -/
theorem extract_hoa_violations_pres {c b : ComprehensiveADRECase}
    (t : String) (hb : hoaPres b c) :
    hoaPres (extract_hoa_violations b t) c := by
  unfold extract_hoa_violations
  exact foldl_pres (fun x => hoaPres x c)
    (fun case dtp => List.foldl
      (fun case p =>
        List.foldl (hoa_violation_step dtp.1) case (reFindIter true p t))
      case dtp.2)
    (fun b' dtp hb' =>
      foldl_pres (fun x => hoaPres x c)
        (fun case p =>
          List.foldl (hoa_violation_step dtp.1) case (reFindIter true p t))
        (fun b'' p hb'' =>
          foldl_pres (fun x => hoaPres x c) (hoa_violation_step dtp.1)
            (fun b''' m hb''' => hoa_violation_step_pres dtp.1 b''' m hb''')
            (reFindIter true p t) b'' hb'')
        dtp.2 b' hb')
    hoa_violation_sets b hb

theorem presIds_trans {a b c : ComprehensiveADRECase}
    (h1 : presIds a b) (h2 : presIds b c) : presIds a c :=
  ⟨h1.1.trans h2.1, h1.2.trans h2.2⟩

theorem presViols_trans {a b c : ComprehensiveADRECase}
    (h1 : presViols a b) (h2 : presViols b c) : presViols a c := by
  obtain ⟨x1, x2, x3, x4, x5, x6⟩ := h1
  obtain ⟨y1, y2, y3, y4, y5, y6⟩ := h2
  exact ⟨x1.trans y1, x2.trans y2, x3.trans y3, x4.trans y4, x5.trans y5,
    x6.trans y6⟩

theorem setHoaList_ids (b : ComprehensiveADRECase) (dt : String)
    (l : List String) : presIds (setHoaList b dt l) b := by
  unfold setHoaList
  repeat' first | split | dsimp only
  all_goals exact ⟨rfl, rfl⟩

theorem legal_ars_step_ids (b : ComprehensiveADRECase) (m : ReMatch) :
    presIds (legal_ars_step b m) b := by
  unfold legal_ars_step
  repeat' first | split | dsimp only
  all_goals exact ⟨rfl, rfl⟩

theorem legal_aac_step_ids (b : ComprehensiveADRECase) (m : ReMatch) :
    presIds (legal_aac_step b m) b := by
  unfold legal_aac_step
  repeat' first | split | dsimp only
  all_goals exact ⟨rfl, rfl⟩

theorem extract_legal_violations_ids (b : ComprehensiveADRECase)
    (t : String) : presIds (extract_legal_violations b t) b := by
  unfold extract_legal_violations
  have h1 := foldl_pres (fun x => presIds x b)
    (fun case p => List.foldl legal_ars_step case (reFindIter true p t))
    (fun b' p hb' =>
      foldl_pres (fun x => presIds x b) legal_ars_step
        (fun b'' m hb'' => presIds_trans (legal_ars_step_ids b'' m) hb'')
        (reFindIter true p t) b' hb')
    ars_patterns b ⟨rfl, rfl⟩
  exact foldl_pres (fun x => presIds x b)
    (fun case p => List.foldl legal_aac_step case (reFindIter true p t))
    (fun b' p hb' =>
      foldl_pres (fun x => presIds x b) legal_aac_step
        (fun b'' m hb'' => presIds_trans (legal_aac_step_ids b'' m) hb'')
        (reFindIter true p t) b' hb')
    aac_patterns _ h1

theorem hoa_violation_step_ids (dt : String) (b : ComprehensiveADRECase)
    (m : ReMatch) : presIds (hoa_violation_step dt b m) b := by
  simp only [hoa_violation_step]
  generalize hoa_violation_of dt m = V
  by_cases hc : (getHoaList b dt).contains V = true
  · rw [if_pos hc]
    exact ⟨rfl, rfl⟩
  · rw [if_neg hc]
    have h1 := setHoaList_ids b dt (getHoaList b dt ++ [V])
    exact ⟨h1.1, h1.2⟩

set_option maxHeartbeats 1000000 in
theorem extract_hoa_violations_ids (b : ComprehensiveADRECase)
    (t : String) : presIds (extract_hoa_violations b t) b := by
  unfold extract_hoa_violations
  exact foldl_pres (fun x => presIds x b)
    (fun case dtp => List.foldl
      (fun case p =>
        List.foldl (hoa_violation_step dtp.1) case (reFindIter true p t))
      case dtp.2)
    (fun b' dtp hb' =>
      foldl_pres (fun x => presIds x b)
        (fun case p =>
          List.foldl (hoa_violation_step dtp.1) case (reFindIter true p t))
        (fun b'' p hb'' =>
          foldl_pres (fun x => presIds x b) (hoa_violation_step dtp.1)
            (fun b''' m hb''' =>
              presIds_trans (hoa_violation_step_ids dtp.1 b''' m) hb''')
            (reFindIter true p t) b'' hb'')
        dtp.2 b' hb')
    hoa_violation_sets b ⟨rfl, rfl⟩

theorem case_info_oah_ids (c : ComprehensiveADRECase) (t : String) :
    presIds (case_info_oah c t) c := by
  unfold case_info_oah
  repeat' first | split | dsimp only
  all_goals exact ⟨rfl, rfl⟩

theorem case_info_viols (c : ComprehensiveADRECase) (t : String) :
    presViols (extract_case_info c t) c := by
  unfold extract_case_info case_info_adre case_info_oah
  repeat' first | split | dsimp only
  all_goals exact ⟨rfl, rfl, rfl, rfl, rfl, rfl⟩

theorem case_info_adre_char (c : ComprehensiveADRECase) (t : String) :
    (case_info_adre c t).adre_case_no =
      (match firstGroup adre_case_patterns t with
       | some g => some g
       | none => c.adre_case_no) ∧
    (case_info_adre c t).case_number =
      (match firstGroup adre_case_patterns t with
       | none => c.case_number
       | some g =>
         if c.case_number = "" ∨ c.case_number = g then g
         else c.case_number) := by
  unfold case_info_adre
  cases hg : firstGroup adre_case_patterns t with
  | none => exact ⟨rfl, rfl⟩
  | some g =>
    dsimp only
    constructor
    · split <;> rfl
    · split <;> rfl

theorem extract_case_info_char (c : ComprehensiveADRECase) (t : String) :
    (extract_case_info c t).case_number =
      (match firstGroup adre_case_patterns t with
       | none => c.case_number
       | some g =>
         if c.case_number = "" ∨ c.case_number = g then g
         else c.case_number) ∧
    (extract_case_info c t).adre_case_no =
      (match firstGroup adre_case_patterns t with
       | some g => some g
       | none => c.adre_case_no) := by
  unfold extract_case_info
  have h1 := case_info_oah_ids c t
  have h2 := case_info_adre_char (case_info_oah c t) t
  rw [h1.1, h1.2] at h2
  exact ⟨h2.2, h2.1⟩

/-- The identifier fields of the full extraction pipeline: the ADRE-case
field records the first (priority-ordered) in-text match on the
whitespace-collapsed text, and `case_number` is that match only when the
filename-derived token is empty or coincides with it — otherwise the
filename token stands. -/
theorem extract_meta_ids_char (pd : String → Option String)
    (text filename : String) :
    (extract_comprehensive_metadata pd text filename).case_number =
      (match firstGroup adre_case_patterns
          (String.mk (collapseWsL text.toList)) with
       | none => extract_case_number_from_filename filename
       | some g =>
         if extract_case_number_from_filename filename = "" ∨
             extract_case_number_from_filename filename = g then g
         else extract_case_number_from_filename filename) ∧
    (extract_comprehensive_metadata pd text filename).adre_case_no =
      (match firstGroup adre_case_patterns
          (String.mk (collapseWsL text.toList)) with
       | some g => some g
       | none => none) := by
  unfold extract_comprehensive_metadata
  dsimp only
  constructor
  · rw [(classify_document_pres _ _).1.1, (extract_dates_pres _ _ _).1.1,
      (extract_outcomes_pres _ _).1.1, (extract_penalties_pres _ _).1.1,
      (extract_hoa_violations_ids _ _).1, (extract_legal_violations_ids _ _).1,
      (extract_judges_pres _ _).1.1, (extract_attorneys_pres _ _).1.1,
      (extract_parties_pres _ _).1.1]
    exact (extract_case_info_char _ _).1
  · rw [(classify_document_pres _ _).1.2, (extract_dates_pres _ _ _).1.2,
      (extract_outcomes_pres _ _).1.2, (extract_penalties_pres _ _).1.2,
      (extract_hoa_violations_ids _ _).2, (extract_legal_violations_ids _ _).2,
      (extract_judges_pres _ _).1.2, (extract_attorneys_pres _ _).1.2,
      (extract_parties_pres _ _).1.2]
    exact (extract_case_info_char _ _).2

/-- C1 counterexample: extraction can return an *empty* case number.
For the filename `".docx"` (a legal file name with no stem), stripping
the extension substrings leaves `""`, and with empty document text no
in-text pattern matches, so the returned record's case number is the
empty string — the claim promises it non-empty for every text and
filename. -/
theorem C1_counterexample :
    (extract_comprehensive_metadata (fun _ => none) "" ".docx").case_number
      = "" := by decide

/-- C1 (amended): the embedded extraction is a total function (never
raises; single-field pattern misses leave only that field at its
default, which the preservation lemmas above make precise), and the
returned case number is non-empty *provided the filename-derived token
is non-empty* — the token being the case-number match inside the
filename, or else the filename with `.docx`/`.doc` substrings removed.
With an empty token, the case number is the in-text match if one exists
and may be empty otherwise. -/
theorem C1_theorem (pd : String → Option String) (text filename : String)
    (h : extract_case_number_from_filename filename ≠ "") :
    (extract_comprehensive_metadata pd text filename).case_number ≠ "" := by
  rw [(extract_meta_ids_char pd text filename).1]
  cases hg : firstGroup adre_case_patterns
      (String.mk (collapseWsL text.toList)) with
  | none => exact h
  | some g =>
    dsimp only
    split
    · next hcond =>
      rcases hcond with hc | hc
      · exact absurd hc h
      · rw [← hc]
        exact h
    · exact h

/-- C1 witness: the filename `"25G-X123.docx"` yields the non-empty
token `"25G-X123"`, so extraction from empty text still returns a
non-empty case number. -/
theorem C1_witness :
    (extract_comprehensive_metadata (fun _ => none) "" "25G-X123.docx"
      ).case_number ≠ "" :=
  C1_theorem (fun _ => none) "" "25G-X123.docx" (by decide)

/-- C5 counterexample: the filename token is *not* merely a fallback.
With filename `"25G-X123.docx"` and text `"ADRE Case No. 24F-H036"`,
the in-text patterns do match (the ADRE-case field records
`"24F-H036"`), yet the extracted case number stays the filename token
`"25G-X123"` — the claim says an in-text match always becomes the case
number. -/
theorem C5_counterexample :
    (extract_comprehensive_metadata (fun _ => none)
      "ADRE Case No. 24F-H036" "25G-X123.docx").adre_case_no
      = some "24F-H036" ∧
    (extract_comprehensive_metadata (fun _ => none)
      "ADRE Case No. 24F-H036" "25G-X123.docx").case_number
      = "25G-X123" := by
  constructor <;> decide

/-- C5 (amended): identifier patterns are tried in priority order with
the first match winning (that is what `firstGroup` over the ordered
pattern list computes), and the ADRE-case field always records the
first in-text match; but the in-text match becomes `case_number` only
when the filename-derived token is empty or already equal to it —
otherwise the filename token takes precedence, so the filename format is
not a mere fallback. -/
theorem C5_theorem (pd : String → Option String)
    (text filename : String) :
    (extract_comprehensive_metadata pd text filename).adre_case_no =
      (match firstGroup adre_case_patterns
          (String.mk (collapseWsL text.toList)) with
       | some g => some g
       | none => none) ∧
    (extract_comprehensive_metadata pd text filename).case_number =
      (match firstGroup adre_case_patterns
          (String.mk (collapseWsL text.toList)) with
       | none => extract_case_number_from_filename filename
       | some g =>
         if extract_case_number_from_filename filename = "" ∨
             extract_case_number_from_filename filename = g then g
         else extract_case_number_from_filename filename) :=
  ⟨(extract_meta_ids_char pd text filename).2,
   (extract_meta_ids_char pd text filename).1⟩

/-- C3 counterexample: a violation list *can* contain two entries with
the same normalized form.  The text `"Governing Documents Section 2"`
produces the entry `"GOVERNING_DOC Section 2"` twice in
`governing_doc_violations`: the guarded append and the unconditional
mirror append of `_extract_hoa_violations` target the same list for the
`governing_doc` category. -/
theorem C3_counterexample :
    (extract_comprehensive_metadata (fun _ => none)
      "Governing Documents Section 2" "f.docx").governing_doc_violations
      = ["GOVERNING_DOC Section 2", "GOVERNING_DOC Section 2"] ∧
    ¬ (extract_comprehensive_metadata (fun _ => none)
      "Governing Documents Section 2" "f.docx"
      ).governing_doc_violations.Nodup := by
  constructor
  · decide
  · intro hn
    rw [show (extract_comprehensive_metadata (fun _ => none)
      "Governing Documents Section 2" "f.docx").governing_doc_violations
      = ["GOVERNING_DOC Section 2", "GOVERNING_DOC Section 2"]
      from by decide] at hn
    simp at hn

/-- C3 (amended): deduplication is by exact formatted entry string (for
the A.R.S. / A.A.C. formats, distinct entries cannot share a normalized
form, since captures contain no whitespace, section sign, long dash or
trailing period).  The A.R.S., A.A.C. and the four specific
governing-document category lists of every extracted record are
duplicate-free; the aggregate `governing_doc_violations` list is not
covered (see the counterexample). -/
theorem C3_theorem (pd : String → Option String)
    (text filename : String) :
    (extract_comprehensive_metadata pd text filename
      ).ars_violations.Nodup ∧
    (extract_comprehensive_metadata pd text filename
      ).aac_violations.Nodup ∧
    (extract_comprehensive_metadata pd text filename
      ).ccr_violations.Nodup ∧
    (extract_comprehensive_metadata pd text filename
      ).bylaws_violations.Nodup ∧
    (extract_comprehensive_metadata pd text filename
      ).declaration_violations.Nodup ∧
    (extract_comprehensive_metadata pd text filename
      ).architectural_violations.Nodup := by
  unfold extract_comprehensive_metadata
  dsimp only
  set tc := String.mk (collapseWsL text.toList) with htc
  set c0 : ComprehensiveADRECase :=
    { case_number := extract_case_number_from_filename filename } with hc0
  set s1 := extract_case_info c0 tc with hs1
  set s2 := extract_parties s1 tc with hs2
  set s3 := extract_attorneys s2 text with hs3
  set s4 := extract_judges s3 text with hs4
  set s5 := extract_legal_violations s4 tc with hs5
  set s6 := extract_hoa_violations s5 tc with hs6
  set s7 := extract_penalties_and_orders s6 tc with hs7
  set s8 := extract_outcomes s7 text with hs8
  set s9 := extract_dates pd s8 text with hs9
  have v1 : presViols s1 c0 := case_info_viols c0 tc
  have v4 : presViols s4 c0 :=
    presViols_trans (extract_judges_pres s3 text).2
      (presViols_trans (extract_attorneys_pres s2 text).2
        (presViols_trans (extract_parties_pres s1 tc).2 v1))
  have hl4 : legalPres s4 s4 :=
    ⟨⟨rfl, rfl⟩, rfl, rfl, rfl, rfl,
     by rw [v4.1, hc0]; exact List.nodup_nil,
     by rw [v4.2.1, hc0]; exact List.nodup_nil⟩
  have L5 : legalPres s5 s4 := extract_legal_violations_pres tc hl4
  have h5 : hoaPres s5 s5 :=
    ⟨⟨rfl, rfl⟩, rfl, rfl,
     by rw [L5.2.1, v4.2.2.1, hc0]; exact List.nodup_nil,
     by rw [L5.2.2.1, v4.2.2.2.1, hc0]; exact List.nodup_nil,
     by rw [L5.2.2.2.1, v4.2.2.2.2.1, hc0]; exact List.nodup_nil,
     by rw [L5.2.2.2.2.1, v4.2.2.2.2.2, hc0]; exact List.nodup_nil⟩
  have H6 : hoaPres s6 s5 := extract_hoa_violations_pres tc h5
  have v10 : presViols (classify_document s9 text) s6 :=
    presViols_trans (classify_document_pres s9 text).2
      (presViols_trans (extract_dates_pres pd s8 text).2
        (presViols_trans (extract_outcomes_pres s7 text).2
          (extract_penalties_pres s6 tc).2))
  refine ⟨?_, ?_, ?_, ?_, ?_, ?_⟩
  · rw [v10.1, H6.2.1]
    exact L5.2.2.2.2.2.1
  · rw [v10.2.1, H6.2.2.1]
    exact L5.2.2.2.2.2.2
  · rw [v10.2.2.1]
    exact H6.2.2.2.1
  · rw [v10.2.2.2.1]
    exact H6.2.2.2.2.1
  · rw [v10.2.2.2.2.1]
    exact H6.2.2.2.2.2.1
  · rw [v10.2.2.2.2.2]
    exact H6.2.2.2.2.2.2

/-- Python string `<` is asymmetric. -/
theorem pyStrLtL_asymm : ∀ a b : List Char,
    pyStrLtL a b = true → pyStrLtL b a = false := by
  intro a
  induction a with
  | nil =>
    intro b h
    cases b with
    | nil => simp [pyStrLtL] at h
    | cons y ys => simp [pyStrLtL]
  | cons x xs ih =>
    intro b h
    cases b with
    | nil => simp [pyStrLtL] at h
    | cons y ys =>
      unfold pyStrLtL at h ⊢
      by_cases h1 : x.toNat < y.toNat
      · rw [if_neg (by omega), if_pos h1]
      · rw [if_neg h1] at h
        by_cases h2 : y.toNat < x.toNat
        · rw [if_pos h2] at h
          cases h
        · rw [if_neg h2] at h
          rw [if_neg h2, if_neg h1]
          exact ih ys h

/-- Python string `<` is transitive. -/
theorem pyStrLtL_trans : ∀ a b c : List Char,
    pyStrLtL a b = true → pyStrLtL b c = true → pyStrLtL a c = true := by
  intro a
  induction a with
  | nil =>
    intro b c hab hbc
    cases c with
    | nil =>
      cases b with
      | nil => exact hbc
      | cons y ys => simp [pyStrLtL] at hbc
    | cons z zs => simp [pyStrLtL]
  | cons x xs ih =>
    intro b c hab hbc
    cases b with
    | nil => simp [pyStrLtL] at hab
    | cons y ys =>
      cases c with
      | nil => simp [pyStrLtL] at hbc
      | cons z zs =>
        unfold pyStrLtL at hab hbc ⊢
        by_cases h1 : x.toNat < y.toNat <;> by_cases h2 : y.toNat < z.toNat
        · rw [if_pos (by omega)]
        · rw [if_neg h2] at hbc
          by_cases h3 : z.toNat < y.toNat
          · rw [if_pos h3] at hbc
            cases hbc
          · rw [if_pos (show x.toNat < z.toNat by omega)]
        · rw [if_neg h1] at hab
          by_cases h3 : y.toNat < x.toNat
          · rw [if_pos h3] at hab
            cases hab
          · rw [if_pos (show x.toNat < z.toNat by omega)]
        · rw [if_neg h1] at hab
          rw [if_neg h2] at hbc
          by_cases h3 : y.toNat < x.toNat
          · rw [if_pos h3] at hab
            cases hab
          by_cases h4 : z.toNat < y.toNat
          · rw [if_pos h4] at hbc
            cases hbc
          rw [if_neg h3] at hab
          rw [if_neg h4] at hbc
          rw [if_neg (show ¬x.toNat < z.toNat by omega),
            if_neg (show ¬z.toNat < x.toNat by omega)]
          exact ih ys zs hab hbc

theorem prioLt_asymm {a b : RChunk} (h : prioLt a b = true) :
    prioLt b a = false :=
  pyStrLtL_asymm _ _ h

theorem prioLt_trans {a b c : RChunk} (h1 : prioLt a b = true)
    (h2 : prioLt b c = true) : prioLt a c = true :=
  pyStrLtL_trans _ _ _ h1 h2

theorem mem_insSorted (lt : RChunk → RChunk → Bool) (x : RChunk) :
    ∀ (l : List RChunk) (y : RChunk),
      y ∈ insSorted lt x l → y = x ∨ y ∈ l := by
  intro l
  induction l with
  | nil =>
    intro y hy
    simp [insSorted] at hy
    exact Or.inl hy
  | cons z zs ih =>
    intro y hy
    unfold insSorted at hy
    split at hy
    · rw [List.mem_cons] at hy
      rcases hy with h | h
      · exact Or.inl h
      · exact Or.inr h
    · rw [List.mem_cons] at hy
      rcases hy with h | h
      · exact Or.inr (by simp [h])
      · rcases ih y h with h' | h'
        · exact Or.inl h'
        · exact Or.inr (by simp [h'])

/-- Stable insertion preserves ascending sortedness with respect to the
chunk-priority key. -/
theorem pairwise_insSorted (x : RChunk) :
    ∀ l : List RChunk,
      l.Pairwise (fun a b => prioLt b a = false) →
      (insSorted prioLt x l).Pairwise (fun a b => prioLt b a = false) := by
  intro l
  induction l with
  | nil =>
    intro _
    simp [insSorted]
  | cons y ys ih =>
    intro hl
    rw [List.pairwise_cons] at hl
    obtain ⟨hy, hys⟩ := hl
    unfold insSorted
    split
    · next hlt =>
      rw [List.pairwise_cons]
      constructor
      · intro z hz
        rw [List.mem_cons] at hz
        rcases hz with hz | hz
        · rw [hz]
          exact prioLt_asymm hlt
        · cases hpz : prioLt z x with
          | false => rfl
          | true =>
            have : prioLt z y = true := prioLt_trans hpz hlt
            rw [hy z hz] at this
            cases this
      · rw [List.pairwise_cons]
        exact ⟨hy, hys⟩
    · next hnlt =>
      rw [List.pairwise_cons]
      constructor
      · intro z hz
        rcases mem_insSorted prioLt x ys z hz with hz' | hz'
        · subst hz'
          cases hpz : prioLt z y with
          | false => rfl
          | true => exact absurd hpz (by simpa using hnlt)
        · exact hy z hz'
      · exact ih hys

theorem pairwise_pySortFold :
    ∀ (l : List RChunk) (acc : List RChunk),
      acc.Pairwise (fun a b => prioLt b a = false) →
      (List.foldl (fun acc x => insSorted prioLt x acc) acc l).Pairwise
        (fun a b => prioLt b a = false) := by
  intro l
  induction l with
  | nil => intro acc h; exact h
  | cons x xs ih =>
    intro acc h
    exact ih _ (pairwise_insSorted x acc h)

/-- The stable sort of the per-project metadata search is sorted by the
priority key. -/
theorem pairwise_pySortChunks (l : List RChunk) :
    (pySortChunks prioLt l).Pairwise (fun a b => prioLt b a = false) :=
  pairwise_pySortFold l [] (by simp)

theorem mem_pySortFold :
    ∀ (l : List RChunk) (acc : List RChunk) (y : RChunk),
      y ∈ List.foldl (fun acc x => insSorted prioLt x acc) acc l →
      y ∈ acc ∨ y ∈ l := by
  intro l
  induction l with
  | nil =>
    intro acc y h
    exact Or.inl h
  | cons x xs ih =>
    intro acc y h
    rcases ih _ y h with h' | h'
    · rcases mem_insSorted prioLt x acc y h' with h'' | h''
      · exact Or.inr (by simp [h''])
      · exact Or.inl h''
    · exact Or.inr (by simp [h'])

theorem mem_pySortChunks {l : List RChunk} {y : RChunk}
    (h : y ∈ pySortChunks prioLt l) : y ∈ l := by
  rcases mem_pySortFold l [] y h with h' | h'
  · cases h'
  · exact h'

/-- Every chunk returned by the per-project metadata search satisfies
the case-number match test. -/
theorem searchProject_matches (cn : String) (db : List RChunk) :
    ∀ c ∈ searchProjectByMetadata cn db, metadataMatch cn c = true := by
  intro c hc
  unfold searchProjectByMetadata at hc
  dsimp only at hc
  split at hc
  · exact (List.mem_filter.mp hc).2
  · split at hc
    · exact (List.mem_filter.mp (mem_pySortChunks hc)).2
    · split at hc
      · exact (List.mem_filter.mp hc).2
      · cases hc

/-- The per-project metadata search result is ascending in the priority
key (for the surviving projects; `"high" < "medium" < "normal"` in
Python's string order, so ascending is highest-tier-first). -/
theorem searchProject_sorted (cn : String) (db : List RChunk) :
    (searchProjectByMetadata cn db).Pairwise
      (fun a b => prioLt b a = false) := by
  unfold searchProjectByMetadata
  dsimp only
  split
  · next hlen =>
    rcases hm : List.filter (metadataMatch cn) db with - | ⟨a, - | ⟨b, l⟩⟩
    · simp
    · simp
    · rw [hm] at hlen
      simp at hlen
  · split
    · exact pairwise_pySortChunks _
    · split
      · next hall =>
        refine List.pairwise_of_forall_mem_list ?_
        intro a ha b hb
        have hna := List.all_eq_true.mp hall a ha
        have hnb := List.all_eq_true.mp hall b hb
        unfold prioLt
        cases hpa : a.chunk_priority with
        | some v =>
          rw [hpa] at hna
          cases hna
        | none =>
          cases hpb : b.chunk_priority with
          | some v =>
            rw [hpb] at hnb
            cases hnb
          | none => rfl
      · simp

/-- C4 counterexample: across collections the returned chunks are *not*
sorted by priority tier.  Two collections each hold one chunk of case
`24F-H036`; the first collection's chunk has tier `"normal"`, the
second's tier `"high"`, and the result keeps the `"normal"` chunk ahead
of the `"high"` one, because `_search_by_metadata` sorts per collection
and concatenates.  (Both chunks match the case number, so the claim's
premise holds.) -/
theorem C4_counterexample :
    (get_relevant_documents
      [[{ content := "A", source := "24F-H036.docx",
          case_number := "24F-H036", chunk_priority := some "normal" }],
       [{ content := "B", source := "24F-H036.docx",
          case_number := "24F-H036", chunk_priority := some "high" }]]
      (fun _ _ _ => []) "Tell me about case 24F-H036" 6).map
      (fun c => c.chunk_priority) = [some "normal", some "high"] := by
  decide

/-- C4 (amended): when the query carries a case-number token and the
metadata search returns at least one chunk, `get_relevant_documents`
returns exactly the metadata-search result — never semantic-search
chunks — where that result is, per collection, the matching chunks
sorted ascending by the Python string order of the tier key
(`"high" < "medium" < "normal"`, so highest tier first; a collection
whose matching chunks mix present and absent tier keys is dropped by
the caught `TypeError` of the sort), concatenated in collection order
and truncated to at most `k`; every returned chunk matches the token by
stored case number or source filename. -/
theorem C4_theorem (dbs : List (List RChunk))
    (similarity : Nat → String → Nat → List RChunk)
    (query : String) (k : Nat) (cn : String)
    (h1 : hybrid_extract_case_number query = some cn)
    (h2 : search_by_metadata dbs cn k ≠ []) :
    get_relevant_documents dbs similarity query k =
      search_by_metadata dbs cn k ∧
    (∀ c ∈ get_relevant_documents dbs similarity query k,
      metadataMatch cn c = true) ∧
    (get_relevant_documents dbs similarity query k).length ≤ k ∧
    ∀ db ∈ dbs, (searchProjectByMetadata cn db).Pairwise
      (fun a b => prioLt b a = false) := by
  have hroute : get_relevant_documents dbs similarity query k =
      search_by_metadata dbs cn k := by
    unfold get_relevant_documents
    rw [h1]
    dsimp only
    rw [if_pos (by simpa using h2)]
  refine ⟨hroute, ?_, ?_, ?_⟩
  · intro c hc
    rw [hroute] at hc
    unfold search_by_metadata at hc
    have hc' := List.take_subset k _ hc
    rw [List.mem_flatten] at hc'
    obtain ⟨l, hl, hcl⟩ := hc'
    rw [List.mem_map] at hl
    obtain ⟨db, -, hdb⟩ := hl
    rw [← hdb] at hcl
    exact searchProject_matches cn db c hcl
  · rw [hroute]
    unfold search_by_metadata
    exact List.length_take_le _ _
  · intro db _
    exact searchProject_sorted cn db

/-- C4 witness: a single collection with a high-tier and a normal-tier
chunk of case `24F-H036`; the case-number path returns exactly the
metadata-search result. -/
theorem C4_witness :
    get_relevant_documents
      [[{ content := "A", source := "24F-H036.docx",
          case_number := "24F-H036", chunk_priority := some "normal" },
        { content := "B", source := "24F-H036.docx",
          case_number := "24F-H036", chunk_priority := some "high" }]]
      (fun _ _ _ => []) "case 24F-H036" 6 =
    search_by_metadata
      [[{ content := "A", source := "24F-H036.docx",
          case_number := "24F-H036", chunk_priority := some "normal" },
        { content := "B", source := "24F-H036.docx",
          case_number := "24F-H036", chunk_priority := some "high" }]]
      "24F-H036" 6 :=
  (C4_theorem
    [[{ content := "A", source := "24F-H036.docx",
        case_number := "24F-H036", chunk_priority := some "normal" },
      { content := "B", source := "24F-H036.docx",
        case_number := "24F-H036", chunk_priority := some "high" }]]
    (fun _ _ _ => []) "case 24F-H036" 6 "24F-H036" (by decide)
    (by decide)).1

/-! ### Stability of citation normalization (toward C2) -/

theorem headWs_cons (c : Char) (l : List Char) : headWs (c :: l) = pyIsSpace c := rfl

theorem wsC_one (c : Char) : wsCollapsed [c] = (!pyIsSpace c || c = ' ') := rfl

theorem wsC_two (c d : Char) (rest : List Char) :
    wsCollapsed (c :: d :: rest) =
      ((!pyIsSpace c || (c = ' ' && !pyIsSpace d)) && wsCollapsed (d :: rest)) := rfl

theorem wsCollapsed_tail {c : Char} {l : List Char}
    (h : wsCollapsed (c :: l) = true) : wsCollapsed l = true := by
  cases l with
  | nil => rfl
  | cons d rest =>
    rw [wsC_two, Bool.and_eq_true] at h
    exact h.2

theorem wsCollapsed_cons_of (c : Char) (l : List Char)
    (h1 : pyIsSpace c = false ∨ (c = ' ' ∧ headWs l = false))
    (h2 : wsCollapsed l = true) : wsCollapsed (c :: l) = true := by
  cases l with
  | nil =>
    rw [wsC_one, Bool.or_eq_true]
    rcases h1 with h' | ⟨h', -⟩
    · exact Or.inl (by simp [h'])
    · exact Or.inr (by simp [h'])
  | cons d rest =>
    rw [wsC_two, Bool.and_eq_true]
    refine ⟨?_, h2⟩
    rw [Bool.or_eq_true]
    rcases h1 with h' | ⟨ha, hb⟩
    · exact Or.inl (by simp [h'])
    · rw [headWs_cons] at hb
      exact Or.inr (by simp [ha, hb])

theorem wsCollapsed_cons_head {c : Char} {l : List Char}
    (h : wsCollapsed (c :: l) = true) (hws : pyIsSpace c = true) : c = ' ' := by
  cases l with
  | nil =>
    rw [wsC_one, Bool.or_eq_true] at h
    rcases h with h' | h'
    · rw [hws] at h'; simp at h'
    · simpa using h'
  | cons d rest =>
    rw [wsC_two, Bool.and_eq_true, Bool.or_eq_true] at h
    rcases h.1 with h' | h'
    · rw [hws] at h'; simp at h'
    · rw [Bool.and_eq_true] at h'
      simpa using h'.1

theorem wsCollapsed_cons_pair {c d : Char} {rest : List Char}
    (h : wsCollapsed (c :: d :: rest) = true) (hws : pyIsSpace c = true) :
    pyIsSpace d = false := by
  rw [wsC_two, Bool.and_eq_true, Bool.or_eq_true] at h
  rcases h.1 with h' | h'
  · rw [hws] at h'; simp at h'
  · rw [Bool.and_eq_true] at h'
    simpa using h'.2

theorem wsAllSpace : ∀ l : List Char, wsCollapsed l = true →
    ∀ c ∈ l, pyIsSpace c = true → c = ' ' := by
  intro l
  induction l with
  | nil => intro _ c hc; exact absurd hc (List.not_mem_nil c)
  | cons x xs ih =>
    intro h c hc hws
    rw [List.mem_cons] at hc
    rcases hc with rfl | hc
    · exact wsCollapsed_cons_head h hws
    · exact ih (wsCollapsed_tail h) c hc hws

theorem headWs_collapseWsL : ∀ s, headWs (collapseWsL s) = headWs s := by
  intro s
  induction s with
  | nil => rfl
  | cons c rest ih =>
    cases rest with
    | nil =>
      by_cases hc : pyIsSpace c = true
      · show headWs [if pyIsSpace c then ' ' else c] = pyIsSpace c
        rw [if_pos hc, hc, headWs_cons]
        decide
      · show headWs [if pyIsSpace c then ' ' else c] = pyIsSpace c
        rw [if_neg hc, headWs_cons]
    | cons d rest' =>
      show headWs (if pyIsSpace c then
          (if pyIsSpace d then collapseWsL (d :: rest') else ' ' :: collapseWsL (d :: rest'))
        else c :: collapseWsL (d :: rest')) = pyIsSpace c
      by_cases hc : pyIsSpace c = true
      · rw [if_pos hc, hc]
        by_cases hd : pyIsSpace d = true
        · rw [if_pos hd, ih, headWs_cons, hd]
        · rw [if_neg hd, headWs_cons]
          decide
      · rw [if_neg hc, headWs_cons]

theorem wsCollapsed_collapseWsL : ∀ s, wsCollapsed (collapseWsL s) = true := by
  intro s
  induction s with
  | nil => rfl
  | cons c rest ih =>
    cases rest with
    | nil =>
      show wsCollapsed [if pyIsSpace c then ' ' else c] = true
      by_cases hc : pyIsSpace c = true
      · rw [if_pos hc]; decide
      · rw [if_neg hc, wsC_one, Bool.or_eq_true]
        exact Or.inl (by simp [Bool.not_eq_true] at hc; simp [hc])
    | cons d rest' =>
      show wsCollapsed (if pyIsSpace c then
          (if pyIsSpace d then collapseWsL (d :: rest') else ' ' :: collapseWsL (d :: rest'))
        else c :: collapseWsL (d :: rest')) = true
      by_cases hc : pyIsSpace c = true
      · rw [if_pos hc]
        by_cases hd : pyIsSpace d = true
        · rw [if_pos hd]; exact ih
        · rw [if_neg hd]
          refine wsCollapsed_cons_of ' ' _ (Or.inr ⟨rfl, ?_⟩) ih
          rw [headWs_collapseWsL, headWs_cons]
          simpa using hd
      · rw [if_neg hc]
        exact wsCollapsed_cons_of c _ (Or.inl (by simpa using hc)) ih

theorem collapseWsL_id : ∀ s, wsCollapsed s = true → collapseWsL s = s := by
  intro s
  induction s with
  | nil => intro _; rfl
  | cons c rest ih =>
    intro h
    cases rest with
    | nil =>
      show [if pyIsSpace c then ' ' else c] = [c]
      by_cases hc : pyIsSpace c = true
      · rw [if_pos hc, wsCollapsed_cons_head h hc]
      · rw [if_neg hc]
    | cons d rest' =>
      show (if pyIsSpace c then
          (if pyIsSpace d then collapseWsL (d :: rest') else ' ' :: collapseWsL (d :: rest'))
        else c :: collapseWsL (d :: rest')) = c :: d :: rest'
      have hrest := ih (wsCollapsed_tail h)
      by_cases hc : pyIsSpace c = true
      · have hd : pyIsSpace d = false := wsCollapsed_cons_pair h hc
        rw [if_pos hc, if_neg (by simp [hd]), hrest,
          wsCollapsed_cons_head h hc]
      · rw [if_neg hc, hrest]

theorem headWs_dropWhile : ∀ l : List Char, headWs (l.dropWhile pyIsSpace) = false := by
  intro l
  induction l with
  | nil => rfl
  | cons c rest ih =>
    rw [List.dropWhile_cons]
    by_cases hc : pyIsSpace c = true
    · rw [if_pos hc]; exact ih
    · rw [if_neg hc, headWs_cons]
      simpa using hc

theorem dropWhile_id_of_headWs {l : List Char} (h : headWs l = false) :
    l.dropWhile pyIsSpace = l := by
  cases l with
  | nil => rfl
  | cons c rest =>
    rw [headWs_cons] at h
    rw [List.dropWhile_cons, if_neg (by simp [h])]

theorem headWs_rdropPart (l : List Char) (h : headWs l = false) :
    headWs ((l.reverse.dropWhile pyIsSpace).reverse) = false := by
  obtain ⟨t, ht⟩ := List.dropWhile_suffix (l := l.reverse) pyIsSpace
  have hl : l = (l.reverse.dropWhile pyIsSpace).reverse ++ t.reverse := by
    have h2 := congrArg List.reverse ht
    rw [List.reverse_append, List.reverse_reverse] at h2
    exact h2.symm
  generalize hres : (l.reverse.dropWhile pyIsSpace).reverse = res at hl ⊢
  cases res with
  | nil => rfl
  | cons x xs =>
    rw [hl] at h
    simpa [List.cons_append, headWs_cons] using h

theorem headWs_pyStripL (l : List Char) : headWs (pyStripL l) = false :=
  headWs_rdropPart (l.dropWhile pyIsSpace) (headWs_dropWhile l)

theorem pyStripL_id {l : List Char} (h1 : headWs l = false)
    (h2 : headWs l.reverse = false) : pyStripL l = l := by
  unfold pyStripL
  rw [dropWhile_id_of_headWs h1, dropWhile_id_of_headWs h2, List.reverse_reverse]

theorem headWs_secFixL : ∀ l, headWs (secFixL l) = headWs l := by
  intro l
  induction l using secFixL.induct with
  | case1 rest ih => rw [secFixL.eq_1]; rfl
  | case2 rest h ih => rw [secFixL.eq_2 rest h]; rfl
  | case3 c rest h1 h2 ih => rw [secFixL.eq_3 c rest h1 h2, headWs_cons, headWs_cons]
  | case4 => rfl

theorem wsCollapsed_headInfo {c : Char} {l : List Char}
    (h : wsCollapsed (c :: l) = true) :
    pyIsSpace c = false ∨ (c = ' ' ∧ headWs l = false) := by
  by_cases hc : pyIsSpace c = true
  · refine Or.inr ⟨wsCollapsed_cons_head h hc, ?_⟩
    cases l with
    | nil => rfl
    | cons d rest => rw [headWs_cons]; exact wsCollapsed_cons_pair h hc
  · exact Or.inl (by simpa using hc)

theorem wsCollapsed_secFixL : ∀ l, wsCollapsed l = true → wsCollapsed (secFixL l) = true := by
  intro l
  induction l using secFixL.induct with
  | case1 rest ih =>
    intro h
    rw [secFixL.eq_1]
    have hr : wsCollapsed rest = true :=
      wsCollapsed_tail (wsCollapsed_tail (wsCollapsed_tail (wsCollapsed_tail h)))
    exact wsCollapsed_cons_of _ _ (Or.inl (by decide))
      (wsCollapsed_cons_of _ _ (Or.inl (by decide)) (ih hr))
  | case2 rest hne ih =>
    intro h
    rw [secFixL.eq_2 rest hne]
    have hr : wsCollapsed rest = true :=
      wsCollapsed_tail (wsCollapsed_tail (wsCollapsed_tail h))
    exact wsCollapsed_cons_of _ _ (Or.inl (by decide))
      (wsCollapsed_cons_of _ _ (Or.inl (by decide)) (ih hr))
  | case3 c rest h1 h2 ih =>
    intro h
    rw [secFixL.eq_3 c rest h1 h2]
    refine wsCollapsed_cons_of c _ ?_ (ih (wsCollapsed_tail h))
    rcases wsCollapsed_headInfo h with h' | ⟨ha, hb⟩
    · exact Or.inl h'
    · exact Or.inr ⟨ha, by rw [headWs_secFixL]; exact hb⟩
  | case4 => intro _; rfl

theorem secFixL_id : ∀ l, listInfixB ['Â', '§', 'Â'] l = false → secFixL l = l := by
  intro l
  induction l using secFixL.induct with
  | case1 rest ih =>
    intro h
    exfalso
    simp [listInfixB, List.isPrefixOf] at h
  | case2 rest hne ih =>
    intro h
    exfalso
    simp [listInfixB, List.isPrefixOf] at h
  | case3 c rest h1 h2 ih =>
    intro h
    rw [secFixL.eq_3 c rest h1 h2]
    have h' : listInfixB ['Â', '§', 'Â'] rest = false := by
      have : (List.isPrefixOf ['Â', '§', 'Â'] (c :: rest) ||
          listInfixB ['Â', '§', 'Â'] rest) = false := h
      exact (Bool.or_eq_false_iff.mp this).2
    rw [ih h']
  | case4 => intro _; rfl

theorem dashFixL_nil : dashFixL [] = [] := rfl

theorem dashFixL_cons (c : Char) (l : List Char) :
    dashFixL (c :: l) =
      (if c = '-' || c = 'â' || c = '€' || c = '“' || c = '”' then '-' else c) ::
        dashFixL l := rfl

theorem pyIsSpace_dashChar (c : Char) :
    pyIsSpace (if c = '-' || c = 'â' || c = '€' || c = '“' || c = '”' then '-' else c) =
      pyIsSpace c := by
  by_cases hx : (c = '-' || c = 'â' || c = '€' || c = '“' || c = '”') = true
  · rw [if_pos hx]
    simp only [Bool.or_eq_true, decide_eq_true_eq] at hx
    rcases hx with (((h | h) | h) | h) | h <;> subst h <;> decide
  · rw [if_neg hx]

theorem headWs_dashFixL : ∀ l, headWs (dashFixL l) = headWs l := by
  intro l
  cases l with
  | nil => rfl
  | cons c rest => rw [dashFixL_cons, headWs_cons, headWs_cons, pyIsSpace_dashChar]

theorem wsCollapsed_dashFixL : ∀ l, wsCollapsed l = true → wsCollapsed (dashFixL l) = true := by
  intro l
  induction l with
  | nil => intro _; rfl
  | cons c rest ih =>
    intro h
    rw [dashFixL_cons]
    refine wsCollapsed_cons_of _ _ ?_ (ih (wsCollapsed_tail h))
    rcases wsCollapsed_headInfo h with h' | ⟨ha, hb⟩
    · exact Or.inl (by rw [pyIsSpace_dashChar]; exact h')
    · subst ha
      refine Or.inr ⟨by decide, ?_⟩
      rw [headWs_dashFixL]
      exact hb

theorem dashFixL_id : ∀ l, noBadDash l = true → dashFixL l = l := by
  intro l
  induction l with
  | nil => intro _; rfl
  | cons c rest ih =>
    intro h
    rw [noBadDash, List.all_cons, Bool.and_eq_true] at h
    obtain ⟨hc, hr⟩ := h
    rw [Bool.not_eq_true', Bool.or_eq_false_iff, Bool.or_eq_false_iff,
      Bool.or_eq_false_iff] at hc
    obtain ⟨⟨⟨h1, h2⟩, h3⟩, h4⟩ := hc
    rw [dashFixL_cons, ih hr]
    by_cases hx : (c = '-' || c = 'â' || c = '€' || c = '“' || c = '”') = true
    · rw [if_pos hx]
      simp only [Bool.or_eq_true, decide_eq_true_eq] at hx
      rcases hx with (((h | h) | h) | h) | h
      · rw [h]
      · rw [h] at h1; simp at h1
      · rw [h] at h2; simp at h2
      · rw [h] at h3; simp at h3
      · rw [h] at h4; simp at h4
    · rw [if_neg hx]

theorem noBadDash_dashFixL : ∀ l, noBadDash (dashFixL l) = true := by
  intro l
  induction l with
  | nil => rfl
  | cons c rest ih =>
    rw [dashFixL_cons, noBadDash, List.all_cons, Bool.and_eq_true]
    refine ⟨?_, ih⟩
    by_cases hx : (c = '-' || c = 'â' || c = '€' || c = '“' || c = '”') = true
    · rw [if_pos hx]; decide
    · rw [if_neg hx]
      simp only [Bool.or_eq_true, decide_eq_true_eq, not_or] at hx
      obtain ⟨⟨⟨⟨-, ha⟩, hb⟩, hc⟩, hd⟩ := hx
      simp [ha, hb, hc, hd]

theorem dropP_cases (s : List Char) :
    dropTrailingPeriodL s = s ∨
    (∃ l, s = l ++ ['.'] ∧ dropTrailingPeriodL s = l) ∨
    (∃ l, s = l ++ ['.', '\n'] ∧ dropTrailingPeriodL s = l ++ ['\n']) := by
  unfold dropTrailingPeriodL
  split
  · next rest heq =>
    refine Or.inr (Or.inr ⟨rest.reverse, ?_, ?_⟩)
    · have h2 := congrArg List.reverse heq
      rw [List.reverse_reverse] at h2
      rw [h2]
      simp [List.reverse_cons, List.append_assoc]
    · simp [List.reverse_cons]
  · next rest heq =>
    refine Or.inr (Or.inl ⟨rest.reverse, ?_, rfl⟩)
    have h2 := congrArg List.reverse heq
    rw [List.reverse_reverse] at h2
    rw [h2]
    simp [List.reverse_cons]
  · exact Or.inl rfl

theorem wsCollapsed_dropLast {ch : Char} :
    ∀ l, wsCollapsed (l ++ [ch]) = true → wsCollapsed l = true := by
  intro l
  induction l with
  | nil => intro _; rfl
  | cons x xs ih =>
    intro h
    cases xs with
    | nil =>
      rw [List.cons_append, List.nil_append, wsC_two, Bool.and_eq_true,
        Bool.or_eq_true] at h
      rw [wsC_one, Bool.or_eq_true]
      rcases h.1 with h' | h'
      · exact Or.inl h'
      · rw [Bool.and_eq_true] at h'
        exact Or.inr h'.1
    | cons y ys =>
      rw [List.cons_append, List.cons_append, wsC_two, Bool.and_eq_true] at h
      rw [wsC_two, Bool.and_eq_true]
      exact ⟨h.1, ih h.2⟩

theorem noBadDash_append_left {l r : List Char}
    (h : noBadDash (l ++ r) = true) : noBadDash l = true := by
  rw [noBadDash, List.all_append, Bool.and_eq_true] at h
  exact h.1

theorem drop_invars {s : List Char} (hws : wsCollapsed s = true)
    (hh : headWs s = false) (hnb : noBadDash s = true) :
    headWs (dropTrailingPeriodL s) = false ∧
    wsCollapsed (dropTrailingPeriodL s) = true ∧
    noBadDash (dropTrailingPeriodL s) = true := by
  rcases dropP_cases s with h | ⟨l, hs, hv⟩ | ⟨l, hs, hv⟩
  · rw [h]
    exact ⟨hh, hws, hnb⟩
  · rw [hv]
    refine ⟨?_, ?_, ?_⟩
    · cases l with
      | nil => rfl
      | cons x xs =>
        rw [hs, List.cons_append, headWs_cons] at hh
        rw [headWs_cons]
        exact hh
    · exact wsCollapsed_dropLast l (hs ▸ hws)
    · exact noBadDash_append_left (hs ▸ hnb)
  · exfalso
    have hmem : '\n' ∈ s := by
      rw [hs, List.mem_append]
      exact Or.inr (by simp)
    have := wsAllSpace s hws '\n' hmem (by decide)
    simp at this

theorem dropTrailingPeriodL_id {s : List Char} (h1 : headWs s.reverse = false)
    (h2 : s.reverse.head? ≠ some '.') : dropTrailingPeriodL s = s := by
  rcases dropP_cases s with h | ⟨l, hs, hv⟩ | ⟨l, hs, hv⟩
  · exact h
  · exfalso
    apply h2
    rw [hs, List.reverse_append]
    simp
  · exfalso
    rw [hs, List.reverse_append] at h1
    simp [headWs_cons] at h1
    exact absurd h1 (by decide)

/-- C2: if the first normalization pass already produced a string in
normal form (no trailing whitespace or period, no residual mojibake
section-symbol pair), a second pass of `normalize_citation` leaves it
unchanged, so the citation cache is keyed consistently. -/
theorem C2_theorem (c : String)
    (h : normalFormStable (normalize_citation c) = true) :
    normalize_citation (normalize_citation c) = normalize_citation c := by
  have hb_ws : wsCollapsed (collapseWsL (pyStripL c.toList)) = true :=
    wsCollapsed_collapseWsL _
  have hb_h : headWs (collapseWsL (pyStripL c.toList)) = false := by
    rw [headWs_collapseWsL]
    exact headWs_pyStripL _
  have hd_ws : wsCollapsed (secFixL (collapseWsL (pyStripL c.toList))) = true :=
    wsCollapsed_secFixL _ hb_ws
  have hd_h : headWs (secFixL (collapseWsL (pyStripL c.toList))) = false := by
    rw [headWs_secFixL]
    exact hb_h
  have he_ws : wsCollapsed (dashFixL (secFixL (collapseWsL (pyStripL c.toList)))) = true :=
    wsCollapsed_dashFixL _ hd_ws
  have he_h : headWs (dashFixL (secFixL (collapseWsL (pyStripL c.toList)))) = false := by
    rw [headWs_dashFixL]
    exact hd_h
  have he_nb : noBadDash (dashFixL (secFixL (collapseWsL (pyStripL c.toList)))) = true :=
    noBadDash_dashFixL _
  obtain ⟨hy_h, hy_ws, hy_nb⟩ := drop_invars he_ws he_h he_nb
  have h' : ((match (dropTrailingPeriodL (dashFixL (secFixL (collapseWsL
        (pyStripL c.toList))))).reverse.head? with
      | some cc => !(pyIsSpace cc || cc = '.')
      | none => true) &&
      !(pyContains (normalize_citation c) "Â§Â")) = true := h
  rw [Bool.and_eq_true] at h'
  obtain ⟨hA, hB⟩ := h'
  have hsec : listInfixB ['Â', '§', 'Â'] (dropTrailingPeriodL (dashFixL (secFixL
      (collapseWsL (pyStripL c.toList))))) = false := by
    have hbe : pyContains (normalize_citation c) "Â§Â" = false := by
      simpa using hB
    have heq : pyContains (normalize_citation c) "Â§Â" =
        listInfixB ("Â§Â".toList) (dropTrailingPeriodL (dashFixL (secFixL
          (collapseWsL (pyStripL c.toList))))) := rfl
    rw [heq, (by decide : ("Â§Â".toList) = ['Â', '§', 'Â'])] at hbe
    exact hbe
  have hrev : headWs (dropTrailingPeriodL (dashFixL (secFixL (collapseWsL
      (pyStripL c.toList))))).reverse = false ∧
      (dropTrailingPeriodL (dashFixL (secFixL (collapseWsL
        (pyStripL c.toList))))).reverse.head? ≠ some '.' := by
    cases hx : (dropTrailingPeriodL (dashFixL (secFixL (collapseWsL
        (pyStripL c.toList))))).reverse with
    | nil => exact ⟨rfl, by simp⟩
    | cons a l =>
      rw [hx] at hA
      simp only [List.head?_cons] at hA
      have hA' : (!(pyIsSpace a || a = '.')) = true := hA
      rw [Bool.not_eq_true', Bool.or_eq_false_iff] at hA'
      refine ⟨?_, ?_⟩
      · rw [headWs_cons]
        exact hA'.1
      · rw [List.head?_cons]
        intro hco
        have : a = '.' := by injection hco
        rw [this] at hA'
        simpa using hA'.2
  have e1 : pyStripL (dropTrailingPeriodL (dashFixL (secFixL (collapseWsL
      (pyStripL c.toList))))) =
      dropTrailingPeriodL (dashFixL (secFixL (collapseWsL (pyStripL c.toList)))) :=
    pyStripL_id hy_h hrev.1
  have e5 : dropTrailingPeriodL (dropTrailingPeriodL (dashFixL (secFixL (collapseWsL
      (pyStripL c.toList))))) =
      dropTrailingPeriodL (dashFixL (secFixL (collapseWsL (pyStripL c.toList)))) :=
    dropTrailingPeriodL_id hrev.1 hrev.2
  show String.mk (dropTrailingPeriodL (dashFixL (secFixL (collapseWsL
      (pyStripL (normalize_citation c).toList))))) = normalize_citation c
  have hlist : (normalize_citation c).toList =
      dropTrailingPeriodL (dashFixL (secFixL (collapseWsL (pyStripL c.toList)))) := rfl
  rw [hlist, e1, collapseWsL_id _ hy_ws, secFixL_id _ hsec, dashFixL_id _ hy_nb, e5]
  rfl

/-- Witness for C2 at a concrete citation already in normal form. -/
theorem C2_witness :
    normalize_citation (normalize_citation "A.R.S. § 32-2153.01") =
      normalize_citation "A.R.S. § 32-2153.01" :=
  C2_theorem "A.R.S. § 32-2153.01" (by decide)
